import Mathlib

/-!
Verification of the waveform experiment GUIs (`amplitude_gui.py`,
`hypoglossal_gui.py`, `testgui.py`, `waveform_gui.py`).

The development shallowly embeds the session control core of the four
experiment variants:

* Python values that are compared across types (`str`, `bytes`, `int`)
  are embedded as the tagged type `PyVal` with Python's cross-type
  equality semantics (`pyEq`), because the source compares a decoded
  `str` against a `bytes` literal and an `int` widget value against `''`.
* Python's `int()` truncation on rationals is `pyInt`.
* The source's numpy float64 arithmetic is embedded at the value level:
  a double is the rational it denotes, `fl64round` is IEEE-754
  round-to-nearest-even onto the binary64 grid (normal range — the
  embedded program's values neither underflow nor overflow), the source
  float literals `0.1 .. 0.9` denote `fl64round` of the decimal
  rationals, and `int(threshold * multiplier)` is `pyInt` of the
  correctly rounded product `fl64mul`.
* `np.random.shuffle` is embedded as an in-place Fisher-Yates pass
  (`fyShuffle`) parameterised by an arbitrary random source.
* The filesystem is an association list from path to file content;
  `open(path, 'w')` overwrites the entry, `os.path.exists` is a lookup.
* Exceptions (`AttributeError` for unset attributes, `IndexError` for
  out-of-range numpy indexing) are `Except PyErr`.
* GUI widgets are records of enabled flags, displayed status strings and
  current input values; `configure_item` / `set_value` / `get_value`
  become record updates and reads.
-/

/-- Python exceptions that the embedded code can raise. -/
inductive PyErr where
  | attributeError
  | indexError
deriving DecidableEq, Repr

/-- A dynamically typed Python value, as far as the sources need:
strings, byte strings and integers. -/
inductive PyVal where
  | str (s : String)
  | bytes (b : List Nat)
  | int (n : Int)
deriving DecidableEq, Repr

/-- Python `==` across the embedded value types: values of different
types compare unequal (`str == bytes` and `int == str` are `False`). -/
def pyEq : PyVal → PyVal → Bool
  | .str a, .str b => a == b
  | .bytes a, .bytes b => a == b
  | .int a, .int b => a == b
  | _, _ => false

/-- Rendering of a `PyVal` inside an f-string.  Byte strings are never
formatted by the embedded code. -/
def pyFmt : PyVal → String
  | .str s => s
  | .int n => toString n
  | .bytes _ => "bytes"

/-- Python `int()` on a rational: truncation toward zero. -/
def pyInt (q : ℚ) : Int :=
  if 0 ≤ q.num then Int.ofNat (q.num.toNat / q.den)
  else - Int.ofNat ((- q.num).toNat / q.den)

/-- Characters stripped by Python `int(str)` before parsing. -/
def pySpace (c : Char) : Bool :=
  c = ' ' || c = '\t' || c = '\n' || c = '\r' || c = '\x0b' || c = '\x0c'

/-- Value of a nonempty all-digit character list, `none` otherwise. -/
def digitsVal : List Char → Option Nat
  | [] => none
  | [c] => if c.isDigit then some (c.toNat - '0'.toNat) else none
  | c :: rest =>
    if c.isDigit then
      (digitsVal rest).map (fun n => (c.toNat - '0'.toNat) * 10 ^ rest.length + n)
    else none

/-- Python `int(s)` for a decimal string: surrounding whitespace is
ignored, an optional sign is allowed, anything else fails. -/
def pyIntOfString (s : String) : Option Int :=
  let t := ((s.toList.dropWhile pySpace).reverse.dropWhile pySpace).reverse
  match t with
  | '+' :: rest => (digitsVal rest).map Int.ofNat
  | '-' :: rest => (digitsVal rest).map (fun n => - (n : Int))
  | rest => (digitsVal rest).map Int.ofNat

/-- Python `s.strip('\x00')`: remove NUL characters from both ends. -/
def stripNul (s : String) : String :=
  String.mk (((s.toList.dropWhile (· = '\x00')).reverse.dropWhile (· = '\x00')).reverse)

/-- Boolean list-prefix test. -/
def listIsPrefixOf : List Char → List Char → Bool
  | [], _ => true
  | _ :: _, [] => false
  | a :: as, b :: bs => a == b && listIsPrefixOf as bs

/-- Boolean substring containment on character lists. -/
def listContainsSub (pat : List Char) : List Char → Bool
  | [] => listIsPrefixOf pat []
  | l@(_ :: rest) => listIsPrefixOf pat l || listContainsSub pat rest

/-- Python `pat in s` for strings. -/
def strContains (s pat : String) : Bool :=
  listContainsSub pat.toList s.toList

/-- The filesystem: an association from paths to file contents. -/
def FS (α : Type) : Type := List (String × α)

/-- Embedding of `os.path.exists`. -/
def fsExists {α : Type} (fs : FS α) (p : String) : Bool :=
  match fs with
  | [] => false
  | (q, _) :: rest => q == p || fsExists rest p

/-- Read a file's contents, if present. -/
def fsRead {α : Type} (fs : FS α) (p : String) : Option α :=
  match fs with
  | [] => none
  | (q, c) :: rest => if q == p then some c else fsRead rest p

/-- Embedding of `open(p, 'w')` followed by writes: replace or create the entry. -/
def fsWrite {α : Type} (fs : FS α) (p : String) (c : α) : FS α :=
  match fs with
  | [] => [(p, c)]
  | (q, c₀) :: rest => if q == p then (q, c) :: rest else (q, c₀) :: fsWrite rest p c

/-! ### The trial sequencer's shuffle

`np.random.shuffle(a)` permutes `a` in place by a Fisher-Yates pass:
for `i` from `len(a) - 1` down to `1` it draws `j` uniformly from
`[0, i]` and swaps `a[i]` with `a[j]`.  The random source is embedded
as an arbitrary function `rand`; drawing at position `i` is
`rand i % (i + 1)`, which ranges over `[0, i]` exactly. -/

/-- Swap the elements at positions `i` and `j`; out-of-range positions
leave the list unchanged (never reached on the in-range calls the
shuffle performs). -/
def listSwap {α : Type} (l : List α) (i j : Nat) : List α :=
  match l[i]?, l[j]? with
  | some a, some b => (l.set i b).set j a
  | _, _ => l

/-- The downward Fisher-Yates pass, currently at position `i`. -/
def fyFrom {α : Type} (rand : Nat → Nat) : List α → Nat → List α
  | l, 0 => l
  | l, i + 1 => fyFrom rand (listSwap l (i + 1) (rand (i + 1) % (i + 2))) i

/-- Embedding of `np.random.shuffle`, parameterised by the random source. -/
def fyShuffle {α : Type} (rand : Nat → Nat) (l : List α) : List α :=
  fyFrom rand l (l.length - 1)

/-! ### Telemetry listener (`monitor_serial` in `amplitude_gui.py`)

The listener loop body decodes a raw line, prints it, and classifies it:
an exact match against `interface.greeting` (the *bytes* literal
`b'Hello'`), then substring tests for `'On'` / `'Off'`, then an integer
parse whose failure is swallowed.  `start_stimulation_status` /
`stop_stimulation_status` toggle the stimulation display and the
associated buttons.  The state below carries exactly the fields those
functions touch, plus the `print` stream. -/

/-- The message constant `interface.greeting = b'Hello'`. -/
def greeting : PyVal := .bytes ("Hello".toList.map (fun c => c.toNat))

/-- The listener-visible state: stimulation display and buttons,
current amplitude and its display, and everything printed so far. -/
structure MonitorState where
  stimulationStatus : String
  startBtnEnabled : Bool
  stopBtnEnabled : Bool
  stimulateEnabled : Bool
  sendEnabled : Bool
  endEnabled : Bool
  current_amplitude : Int
  currentAmplitudeDisplay : String
  printed : List String
deriving DecidableEq, Repr

/-- Embedding of `start_stimulation_status` in `amplitude_gui.py`. -/
def startStimulationStatus (m : MonitorState) : MonitorState :=
  { m with startBtnEnabled := false, stopBtnEnabled := true,
           stimulateEnabled := false, sendEnabled := false, endEnabled := false,
           stimulationStatus := "On" }

/-- Embedding of `stop_stimulation_status` in `amplitude_gui.py`. -/
def stopStimulationStatus (m : MonitorState) : MonitorState :=
  { m with startBtnEnabled := true, stopBtnEnabled := false,
           stimulateEnabled := true, sendEnabled := true, endEnabled := true,
           stimulationStatus := "Off" }

/-- One classification of a decoded line by `monitor_serial`:
`val = response.decode("utf-8").strip('\x00')` is printed, then
compared to the greeting, then tested for `'On'` / `'Off'`, then
integer-parsed with silent discard on failure. -/
def monitorStep (resp : String) (m : MonitorState) : MonitorState :=
  let val := stripNul resp
  let m := { m with printed := m.printed ++ [val] }
  if pyEq (.str val) greeting then
    { m with printed := m.printed ++ ["Greeting received"] }
  else if strContains val "On" then
    startStimulationStatus m
  else if strContains val "Off" then
    stopStimulationStatus m
  else
    match pyIntOfString val with
    | some n => { m with current_amplitude := n, currentAmplitudeDisplay := toString n }
    | none => m

/-- One loop iteration of `monitor_serial`: the device line is read and
classified only when `interface.ready == True`; otherwise the iteration
touches nothing. -/
def monitorIter (ready : Bool) : MonitorState × List String → MonitorState × List String
  | (m, pending) =>
    if ready then
      match pending with
      | [] => (m, [])
      | resp :: rest => (monitorStep resp m, rest)
    else (m, pending)

/-- Iterating `monitor_serial` for `n` loop rounds under a fixed `ready` flag. -/
def monitorRun (ready : Bool) : Nat → MonitorState × List String → MonitorState × List String
  | 0, st => st
  | n + 1, st => monitorRun ready n (monitorIter ready st)

/-! ### The generic amplitude/measure variant (`amplitude_gui.py`) -/

/-- A line of the persisted dataset: a literal header/metadata line, a
blank line, or an `amplitude, measurement` data row. -/
inductive AmpLine where
  | text (s : String)
  | blank
  | row (amplitude : Int) (measurement : Int)
deriving DecidableEq, Repr

/-- The `Interface` object of `amplitude_gui.py`.  Attributes that the
constructor does not set (`participantID`, ..., `filename`) are `Option`s
that start as `none`. -/
structure AmpItf where
  connected : Bool
  inputCheck : Bool
  ready : Bool
  amplitudes : List Int
  measures : List Int
  num_measures : Nat
  current_amplitude : Int
  participantID : String
  sessionID : String
  sex : PyVal
  age : PyVal
  filename : Option String
deriving DecidableEq, Repr

/-- The widgets of `amplitude_gui.py` that the modelled callbacks read
or reconfigure: enabled flags, status displays, and input values. -/
structure AmpUI where
  participantEnabled : Bool
  sessionEnabled : Bool
  ageEnabled : Bool
  sexEnabled : Bool
  connectEnabled : Bool
  startEnabled : Bool
  endEnabled : Bool
  waveformEnabled : Bool
  frequencyEnabled : Bool
  durationEnabled : Bool
  sendEnabled : Bool
  stimulateEnabled : Bool
  startBtnEnabled : Bool
  discomfortEnabled : Bool
  painEnabled : Bool
  amplitudeEnabled : Bool
  measurementEnabled : Bool
  saveMeasureEnabled : Bool
  deviceStatus : String
  sessionStatus : String
  overallStatus : String
  numMeasuresDisplay : Nat
  participantValue : String
  sessionValue : String
  ageValue : PyVal
  sexValue : PyVal
  amplitudeValue : Int
  measurementValue : Int
  discomfortValue : Int
  painValue : Int
deriving DecidableEq, Repr

/-- Full program state of the amplitude variant: interface object,
widgets, and the filesystem. -/
structure AmpState where
  itf : AmpItf
  ui : AmpUI
  fs : FS (List AmpLine)

/-- Initial state: widgets at their `add_*` defaults (only `Connect`
enabled; text inputs empty; `Age` an int input defaulting to 30, `Sex`
a `dearpygui.core` radio returning its integer index). -/
def ampInit : AmpState :=
  { itf := { connected := false, inputCheck := false, ready := false,
             amplitudes := [], measures := [], num_measures := 0,
             current_amplitude := 0, participantID := "", sessionID := "",
             sex := .int 0, age := .int 30, filename := none }
    ui := { participantEnabled := false, sessionEnabled := false,
            ageEnabled := false, sexEnabled := false,
            connectEnabled := true, startEnabled := false, endEnabled := false,
            waveformEnabled := false, frequencyEnabled := false,
            durationEnabled := false, sendEnabled := false,
            stimulateEnabled := false, startBtnEnabled := false,
            discomfortEnabled := false, painEnabled := false,
            amplitudeEnabled := false, measurementEnabled := false,
            saveMeasureEnabled := false,
            deviceStatus := "Not connected", sessionStatus := "Not started",
            overallStatus := "Ready to connect", numMeasuresDisplay := 0,
            participantValue := "", sessionValue := "",
            ageValue := .int 30, sexValue := .int 0,
            amplitudeValue := 0, measurementValue := 0,
            discomfortValue := 0, painValue := 0 }
    fs := [] }

/-- Embedding of `connect_callback`: connect, enable the demographic inputs and the
start button, update the statuses. -/
def ampConnect (s : AmpState) : AmpState :=
  { s with
    itf := { s.itf with connected := true }
    ui := { s.ui with
              participantEnabled := true, sessionEnabled := true,
              ageEnabled := true, sexEnabled := true,
              connectEnabled := false, startEnabled := true, endEnabled := false,
              deviceStatus := "Connected", overallStatus := "Device connected" } }

/-- Embedding of `Interface.parseInputs` of `amplitude_gui.py`: load the widget
values, check them in order (participant, session, age, existing file),
set `self.filename` *before* the existence check, and set `inputCheck`. -/
def ampParseInputs (s : AmpState) : AmpState :=
  let itf := { s.itf with
                 participantID := s.ui.participantValue,
                 sessionID := s.ui.sessionValue, sex := s.ui.sexValue,
                 age := s.ui.ageValue }
  if itf.participantID == "" then
    { s with itf := { itf with inputCheck := false },
             ui := { s.ui with overallStatus := "Enter participant ID" } }
  else if itf.sessionID == "" then
    { s with itf := { itf with inputCheck := false },
             ui := { s.ui with overallStatus := "Enter session ID" } }
  else if pyEq itf.age (.str "") then
    { s with itf := { itf with inputCheck := false },
             ui := { s.ui with overallStatus := "Enter age" } }
  else
    let fname := itf.participantID ++ "_" ++ itf.sessionID ++ ".csv"
    let itf := { itf with filename := some fname }
    if fsExists s.fs fname then
      { s with itf := { itf with inputCheck := false },
               ui := { s.ui with overallStatus := "File already exists" } }
    else
      { s with itf := { itf with inputCheck := true } }

/-- Embedding of `startSession_callback` of `amplitude_gui.py`: parse the inputs and
then — with **no** check of `interface.inputCheck` — disable the
identity inputs, flip start/end, update the statuses, and enable the
experiment controls. -/
def ampStartSession (s : AmpState) : AmpState :=
  let s := ampParseInputs s
  { s with
    ui := { s.ui with
              participantEnabled := false, sessionEnabled := false,
              ageEnabled := false, sexEnabled := false,
              endEnabled := true, startEnabled := false,
              sessionStatus := "Started", overallStatus := "Session started",
              waveformEnabled := true, frequencyEnabled := true,
              durationEnabled := false, sendEnabled := true,
              stimulateEnabled := false } }

/-- The file body built by `endSession_callback` of `amplitude_gui.py`:
identity header, thresholds block, `Amplitude, Measurement` header, then
one row per saved measure. -/
def ampFileOf (s : AmpState) : List AmpLine :=
  [ .text "Participant ID, session ID, age, sex",
    .text (s.ui.participantValue ++ ", " ++ s.ui.sessionValue ++ ", "
           ++ pyFmt s.ui.ageValue ++ ", " ++ pyFmt s.ui.sexValue),
    .blank,
    .text "Discomfort threshold, Pain threshold",
    .text (toString s.ui.discomfortValue ++ ", " ++ toString s.ui.painValue),
    .blank,
    .text "Amplitude, Measurement" ]
  ++ (List.range s.itf.num_measures).map (fun idx =>
       AmpLine.row (s.itf.amplitudes.getD idx 0) (s.itf.measures.getD idx 0))

/-- Embedding of `endSession_callback` of `amplitude_gui.py`: write the dataset to
`interface.filename` (in `'w'` mode, truncating any existing file),
reset the `connected`/`ready` flags, disable the controls, restore the
statuses.  The identity inputs and the collected
`amplitudes`/`measures`/`num_measures` are **not** touched.  Raises if
`interface.filename` was never assigned, or if `num_measures` exceeds
the stored lists (the loop would index past their end). -/
def ampEndSession (s : AmpState) : Except PyErr AmpState :=
  match s.itf.filename with
  | none => .error .attributeError
  | some fname =>
    if s.itf.num_measures ≤ s.itf.amplitudes.length
        ∧ s.itf.num_measures ≤ s.itf.measures.length then
      .ok { s with
        fs := fsWrite s.fs fname (ampFileOf s),
        itf := { s.itf with connected := false, ready := false },
        ui := { s.ui with
                  connectEnabled := true, startEnabled := false,
                  endEnabled := false, waveformEnabled := false,
                  frequencyEnabled := false, durationEnabled := false,
                  sendEnabled := false, stimulateEnabled := false,
                  startBtnEnabled := false, discomfortEnabled := false,
                  painEnabled := false, amplitudeEnabled := false,
                  measurementEnabled := false, saveMeasureEnabled := false,
                  sessionStatus := "Not started", deviceStatus := "Not connected",
                  overallStatus := "Ready to connect" } }
    else .error .indexError

/-- Embedding of `send_waveform_callback` of `amplitude_gui.py`, restricted to its
state effects: the waveform synthesis and transmission are external; the
callback then enables the stimulation and data-collection controls and
sets `interface.ready = True`. -/
def ampSendWaveform (s : AmpState) : AmpState :=
  { s with
    itf := { s.itf with ready := true }
    ui := { s.ui with
              durationEnabled := true, stimulateEnabled := true,
              sendEnabled := true, endEnabled := true, startBtnEnabled := true,
              discomfortEnabled := true, painEnabled := true,
              amplitudeEnabled := true, measurementEnabled := true,
              saveMeasureEnabled := true } }

/-- Embedding of `add_measure_callback` of `amplitude_gui.py`: append the amplitude
and measurement input values and bump `num_measures`. -/
def ampAddMeasure (s : AmpState) : AmpState :=
  { s with itf := { s.itf with
             amplitudes := s.itf.amplitudes ++ [s.ui.amplitudeValue],
             measures := s.itf.measures ++ [s.ui.measurementValue],
             num_measures := s.itf.num_measures + 1 },
           ui := { s.ui with numMeasuresDisplay := s.itf.num_measures + 1 } }

/-! ### Value-level binary64 arithmetic

The hypoglossal variant multiplies an `int` threshold by numpy float64
multipliers.  Doubles are embedded as the rationals they denote; an
arithmetic result is the exact rational result rounded to the nearest
representable double, ties to even.  The embedding covers the normal
range, which contains every value the program computes. -/

/-- Round a rational to the nearest integer, ties to even. -/
def roundHalfEven (m : ℚ) : ℤ :=
  if m - ⌊m⌋ < 1/2 then ⌊m⌋
  else if 1/2 < m - ⌊m⌋ then ⌊m⌋ + 1
  else if ⌊m⌋ % 2 = 0 then ⌊m⌋ else ⌊m⌋ + 1

/-- IEEE-754 round-to-nearest-even onto the binary64 grid (normal
range): the 53-bit significand of `x` is rounded at the exponent
`Int.log 2 x`. -/
def fl64round (x : ℚ) : ℚ :=
  if x = 0 then 0
  else if 0 < x then
    ((roundHalfEven (x * 2 ^ ((52 : ℤ) - Int.log 2 x)) : ℤ) : ℚ)
      * 2 ^ (Int.log 2 x - 52)
  else
    - (((roundHalfEven ((-x) * 2 ^ ((52 : ℤ) - Int.log 2 (-x))) : ℤ) : ℚ)
        * 2 ^ (Int.log 2 (-x) - 52))

/-- Float64 multiplication: the exact product, correctly rounded. -/
def fl64mul (a b : ℚ) : ℚ := fl64round (a * b)

/-! ### The calibration-based variant (`hypoglossal_gui.py`)

Trial parameters: 9 multipliers tiled 3 times (`np.tile`), canonical
indices `0 .. 26`; `multipliers` is the administration order (an
`np.arange` that `startSession` shuffles in place), `measures` the
per-canonical-index record array, `amplitude_id` the cursor. -/

/-- The decimal values written in the source's multiplier list
`[0.1, ..., 0.9]`, read as exact rationals. -/
def multiplierBase : List ℚ :=
  [1/10, 2/10, 3/10, 4/10, 5/10, 6/10, 7/10, 8/10, 9/10]

/-- The float64 values those literals actually denote: each decimal is
rounded to the nearest double (e.g. `0.7` becomes
`6305039478318694 / 2 ^ 53 < 7/10`). -/
def multiplierBaseD : List ℚ := multiplierBase.map fl64round

/-- Embedding of `np.tile(multiplier_values, num_repeats)` with `num_repeats = 3`:
three concatenated copies of the float64 multiplier list. -/
def multiplier_values : List ℚ := multiplierBaseD ++ multiplierBaseD ++ multiplierBaseD

/-- Modelled from the spec's words for comparison with the float64 list:
the ideal multipliers `k/10`, tiled three times.  (Claim C7 words its
trial rows with `floor(threshold × multiplier_k)` over these design
values.) -/
def multiplier_values_exact : List ℚ := multiplierBase ++ multiplierBase ++ multiplierBase

/-- The planned trial count `self.NUM_MEASURES = len(self.multiplier_values)` (= 27). -/
def NUM_MEASURES : Nat := multiplier_values.length

/-- The `Interface` object of `hypoglossal_gui.py`.  `sessionType` and
`filename` are attributes that only `parseInputs` may create. -/
structure HypoItf where
  connected : Bool
  inputCheck : Bool
  ready : Bool
  calibrated : Bool
  amplitude_id : Nat
  multipliers : List Nat
  measures : List ℚ
  current_amplitude : Int
  participantID : String
  sessionID : String
  sex : String
  age : PyVal
  sessionType : Option String
  filename : Option String

/-- The widgets of `hypoglossal_gui.py` that the modelled callbacks
read or reconfigure. -/
structure HypoUI where
  participantEnabled : Bool
  sessionEnabled : Bool
  ageEnabled : Bool
  sexEnabled : Bool
  connectEnabled : Bool
  startEnabled : Bool
  endEnabled : Bool
  loadEnabled : Bool
  stimulateEnabled : Bool
  startBtnEnabled : Bool
  stopBtnEnabled : Bool
  nextEnabled : Bool
  doneCalEnabled : Bool
  durationEnabled : Bool
  baselineEnabled : Bool
  toleranceEnabled : Bool
  measurementEnabled : Bool
  measureEnabled : Bool
  deviceStatus : String
  sessionStatus : String
  overallStatus : String
  stimulationStatus : String
  numMeasuresDisplay : Nat
  participantValue : String
  sessionValue : String
  ageValue : PyVal
  sexValue : String
  baselineValue : Int
  toleranceValue : Int
  measurementValue : Int
  measureValue : Int
  durationValue : Int

/-- A line of the persisted calibration-variant dataset. -/
inductive HLine where
  | text (s : String)
  | blank
  | row (amplitude : Int) (multiplier : ℚ) (measure : ℚ)

/-- Full program state of the calibration variant. -/
structure HypoState where
  itf : HypoItf
  ui : HypoUI
  fs : FS (List HLine)

/-- Initial state: constructor defaults of `Interface` plus the widget
`add_*` defaults (`Session ID` is a radio over `Hyomental`/`Tongue`
defaulting to `"Hyomental"`; `Sex` a 1.x radio returning its string). -/
def hypoInit : HypoState :=
  { itf := { connected := false, inputCheck := false, ready := false,
             calibrated := false, amplitude_id := 0,
             multipliers := List.range NUM_MEASURES,
             measures := List.replicate NUM_MEASURES 0,
             current_amplitude := 50, participantID := "", sessionID := "",
             sex := "", age := .int 30, sessionType := none, filename := none }
    ui := { participantEnabled := false, sessionEnabled := false,
            ageEnabled := false, sexEnabled := false,
            connectEnabled := true, startEnabled := false, endEnabled := false,
            loadEnabled := false, stimulateEnabled := false,
            startBtnEnabled := false, stopBtnEnabled := false,
            nextEnabled := false, doneCalEnabled := false,
            durationEnabled := false, baselineEnabled := false,
            toleranceEnabled := false, measurementEnabled := false,
            measureEnabled := false,
            deviceStatus := "Not connected", sessionStatus := "Not started",
            overallStatus := "Ready to connect", stimulationStatus := "Off",
            numMeasuresDisplay := 0,
            participantValue := "", sessionValue := "Hyomental",
            ageValue := .int 30, sexValue := "Male",
            baselineValue := 0, toleranceValue := 0, measurementValue := 0,
            measureValue := 0, durationValue := 5 }
    fs := [] }

/-- Embedding of `connect_callback` of `hypoglossal_gui.py`. -/
def hypoConnect (s : HypoState) : HypoState :=
  { s with
    itf := { s.itf with connected := true }
    ui := { s.ui with
              participantEnabled := true, sessionEnabled := true,
              ageEnabled := true, sexEnabled := true,
              connectEnabled := false, startEnabled := true, endEnabled := false,
              deviceStatus := "Connected", overallStatus := "Device connected" } }

/-- Embedding of `Interface.parseInputs` of `hypoglossal_gui.py`: check the identity
fields; map the session radio value onto `sessionType` (`"Hyomental"` ↦
`'hyomental'`, `"Tongue"` ↦ `'tongue'`, anything else leaves the
attribute as it was — on a fresh interface it does not exist, so the
following `self.filename = ... + self.sessionType + ...` raises
`AttributeError`); build the file path; reject an existing file. -/
def hypoParseInputs (s : HypoState) : Except PyErr HypoState :=
  let itf := { s.itf with
                 participantID := s.ui.participantValue,
                 sessionID := s.ui.sessionValue, sex := s.ui.sexValue,
                 age := s.ui.ageValue }
  if itf.participantID == "" then
    .ok { s with
          itf := { itf with inputCheck := false }
          ui := { s.ui with overallStatus := "Enter participant ID" } }
  else if itf.sessionID == "" then
    .ok { s with
          itf := { itf with inputCheck := false }
          ui := { s.ui with overallStatus := "Enter session ID" } }
  else if pyEq itf.age (.str "") then
    .ok { s with
          itf := { itf with inputCheck := false }
          ui := { s.ui with overallStatus := "Enter age" } }
  else
    let itf :=
      if itf.sessionID == "Hyomental" then { itf with sessionType := some "hyomental" }
      else if itf.sessionID == "Tongue" then { itf with sessionType := some "tongue" }
      else itf
    match itf.sessionType with
    | none => .error .attributeError
    | some st =>
      let fname := itf.participantID ++ "_" ++ st ++ ".csv"
      let itf := { itf with filename := some fname }
      if fsExists s.fs fname then
        .ok { s with
              itf := { itf with inputCheck := false }
              ui := { s.ui with overallStatus := "File already exists" } }
      else
        .ok { s with itf := { itf with inputCheck := true } }

/-- Embedding of `startSession_callback` of `hypoglossal_gui.py`: parse inputs; if
they check out, reset the cursor and shuffle the administration order,
then disable the identity inputs, flip start/end, update the statuses
and enable `Load`; otherwise stop (`return`) with the state as
`parseInputs` left it. -/
def hypoStartSession (rand : Nat → Nat) (s : HypoState) : Except PyErr HypoState :=
  match hypoParseInputs s with
  | .error e => .error e
  | .ok s =>
    if s.itf.inputCheck then
      let s := { s with
                 itf := { s.itf with
                            amplitude_id := 0,
                            multipliers := fyShuffle rand s.itf.multipliers } }
      .ok { s with
            ui := { s.ui with
                      participantEnabled := false, sessionEnabled := false,
                      ageEnabled := false, sexEnabled := false,
                      endEnabled := true, startEnabled := false,
                      sessionStatus := "Started", overallStatus := "Session started",
                      loadEnabled := true } }
    else
      .ok s

/-- Embedding of `send_waveform` of `hypoglossal_gui.py`, restricted to its state
effects (waveform synthesis and transmission are external): buttons are
disabled around the send — `Next` among them, re-enabled only when
`interface.calibrated` — and `interface.ready` is set. -/
def hypoSendWaveform (s : HypoState) : HypoState :=
  { s with
    itf := { s.itf with ready := true }
    ui := { s.ui with
              durationEnabled := true, stimulateEnabled := true,
              loadEnabled := true, endEnabled := true, startBtnEnabled := true,
              baselineEnabled := true, toleranceEnabled := true,
              measureEnabled := true, measurementEnabled := true,
              nextEnabled := s.itf.calibrated } }

/-- Embedding of `done_calibration_callback`: compute the first trial amplitude from
the front of the administration order, send it, enable `Next`, disable
`Done calibration`, and mark the interface calibrated. -/
def hypoDoneCalibration (s : HypoState) : Except PyErr HypoState :=
  match s.itf.multipliers[s.itf.amplitude_id]? with
  | none => .error .indexError
  | some canon =>
    match multiplier_values[canon]? with
    | none => .error .indexError
    | some mv =>
      let s := hypoSendWaveform
        { s with itf := { s.itf with current_amplitude := pyInt (fl64mul 50 mv) } }
      .ok { s with
            itf := { s.itf with calibrated := true }
            ui := { s.ui with nextEnabled := true, doneCalEnabled := false } }

/-- Embedding of `add_measure_callback` of `hypoglossal_gui.py`: store the measure
under the *canonical* index `multipliers[amplitude_id]` (numpy indexing
raises `IndexError` out of range, before anything is written), advance
the cursor; below the planned count, compute and send the next
amplitude; at the end, disable the trial controls and report session
completion. -/
def hypoAddMeasure (s : HypoState) : Except PyErr HypoState :=
  let measure : Int := s.ui.measureValue
  match s.itf.multipliers[s.itf.amplitude_id]? with
  | none => .error .indexError
  | some canon =>
    if canon < s.itf.measures.length then
      let aid := s.itf.amplitude_id + 1
      let s := { s with
                 itf := { s.itf with
                            measures := s.itf.measures.set canon (measure : ℚ),
                            amplitude_id := aid }
                 ui := { s.ui with numMeasuresDisplay := aid } }
      if aid < NUM_MEASURES then
        match s.itf.multipliers[aid]? with
        | none => .error .indexError
        | some canon' =>
          match multiplier_values[canon']? with
          | none => .error .indexError
          | some mv =>
            .ok (hypoSendWaveform
              { s with itf := { s.itf with current_amplitude := pyInt (fl64mul 50 mv) } })
      else
        .ok { s with
              ui := { s.ui with
                        startEnabled := false, endEnabled := true,
                        durationEnabled := false, loadEnabled := false,
                        stimulateEnabled := false, startBtnEnabled := false,
                        baselineEnabled := false, toleranceEnabled := false,
                        measureEnabled := false, measurementEnabled := false,
                        nextEnabled := false,
                        overallStatus := "Session complete" } }
    else .error .indexError

/-- Set the `Measure (mm)` input (the operator typing a measurement
before pressing `Next`). -/
def hypoSetMeasure (v : Int) (s : HypoState) : HypoState :=
  { s with ui := { s.ui with measureValue := v } }

/-- Record a list of measurements in order: set the measure input and
press `Next`, propagating any exception. -/
def hypoRecordRun (s : HypoState) : List Int → Except PyErr HypoState
  | [] => .ok s
  | v :: vs =>
    match hypoAddMeasure (hypoSetMeasure v s) with
    | .ok s' => hypoRecordRun s' vs
    | .error e => .error e

/-- The file body built by `endSession_callback` of
`hypoglossal_gui.py`: identity header, `Amplitude, multiplier, measure`
header, the baseline row `0, 0.0, baseline`, the threshold calibration
row `threshold, 1.0, measurement`, then one row per canonical index
`idx` in `range(NUM_MEASURES)` with amplitude
`int(threshold_current * multiplier_values[idx])` — the `int` threshold
times the float64 multiplier, rounded to a double, then truncated. -/
def hypoFileOf (sessionType : String) (s : HypoState) : List HLine :=
  [ .text "Participant ID, session ID, age, sex",
    .text (s.ui.participantValue ++ ", " ++ sessionType ++ ", "
           ++ pyFmt s.ui.ageValue ++ ", " ++ s.ui.sexValue),
    .blank,
    .text "Amplitude, multiplier, measure",
    .row 0 0 (s.ui.baselineValue : ℚ),
    .row s.ui.toleranceValue 1 (s.ui.measurementValue : ℚ) ]
  ++ (List.range NUM_MEASURES).map (fun idx =>
       HLine.row (pyInt (fl64mul (s.ui.toleranceValue : ℚ) (multiplier_values.getD idx 0)))
         (multiplier_values.getD idx 0) (s.itf.measures.getD idx 0))

/-- Embedding of `endSession_callback` of `hypoglossal_gui.py`: read the identity
widgets and `interface.sessionType` (raising if the attribute was never
created), write the dataset to `interface.filename` in `'w'` mode,
reset the flags, disable the controls, restore the statuses.  The
`measures` array and `amplitude_id` are **not** cleared, and the
identity inputs are **not** re-enabled. -/
def hypoEndSession (s : HypoState) : Except PyErr HypoState :=
  match s.itf.sessionType, s.itf.filename with
  | some st, some fname =>
    if s.itf.measures.length = NUM_MEASURES then
      .ok { s with
        fs := fsWrite s.fs fname (hypoFileOf st s),
        itf := { s.itf with connected := false, ready := false, calibrated := false },
        ui := { s.ui with
                  connectEnabled := true, startEnabled := false, endEnabled := false,
                  durationEnabled := false, loadEnabled := false,
                  stimulateEnabled := false, startBtnEnabled := false,
                  baselineEnabled := false, toleranceEnabled := false,
                  measureEnabled := false, measurementEnabled := false,
                  nextEnabled := false, doneCalEnabled := false,
                  sessionStatus := "Not started", deviceStatus := "Not connected",
                  overallStatus := "Ready to connect" } }
    else .error .indexError
  | _, _ => .error .attributeError

/-! ### Concrete scenario states and auxiliary definitions -/

/-- The functional content of recording a measure sequence: starting at
cursor `k`, each value `v` is stored at canonical index `p.getD k 0` and
the cursor advances. -/
def writeSeq (p : List Nat) : Nat → List ℚ → List Int → List ℚ
  | _, M, [] => M
  | k, M, v :: vs => writeSeq p (k + 1) (M.set (p.getD k 0) ((v : Int) : ℚ)) vs

/-- A concrete deterministic random source (always draws 0). -/
def rand0 : Nat → Nat := fun _ => 0

/-- Operator typing the identity fields of the amplitude variant. -/
def ampSetInputs (p sess : String) (a : PyVal) (s : AmpState) : AmpState :=
  { s with ui := { s.ui with participantValue := p, sessionValue := sess, ageValue := a } }

/-- Operator typing an amplitude and a measurement before `Save measure`. -/
def ampSetTrialInputs (a m : Int) (s : AmpState) : AmpState :=
  { s with ui := { s.ui with amplitudeValue := a, measurementValue := m } }

/-- Operator typing the identity fields of the calibration variant. -/
def hypoSetInputs (p sess : String) (a : PyVal) (s : HypoState) : HypoState :=
  { s with ui := { s.ui with participantValue := p, sessionValue := sess, ageValue := a } }

/-- Operator typing the tolerance threshold during calibration. -/
def hypoSetTolerance (v : Int) (s : HypoState) : HypoState :=
  { s with ui := { s.ui with toleranceValue := v } }

/-- The session-defining data that recording trials must not disturb:
session attributes, identity/calibration widget values, and the
filesystem. -/
def HypoState.core (s : HypoState) :
    Option String × Option String × String × PyVal × String × Int × Int × Int
      × FS (List HLine) :=
  (s.itf.sessionType, s.itf.filename, s.ui.participantValue, s.ui.ageValue,
   s.ui.sexValue, s.ui.baselineValue, s.ui.toleranceValue, s.ui.measurementValue,
   s.fs)

/-- A listener state as left after a session became ready. -/
def mReady : MonitorState :=
  { stimulationStatus := "Off", startBtnEnabled := true, stopBtnEnabled := false,
    stimulateEnabled := true, sendEnabled := true, endEnabled := true,
    current_amplitude := 0, currentAmplitudeDisplay := "Not specified", printed := [] }

/-- Amplitude variant, `startSession` clicked in `Connected` with the
participant field left empty. -/
def c1state : AmpState := ampStartSession (ampConnect ampInit)

/-- A filesystem already holding the output path `A_B.csv`. -/
def ampExistingFs : FS (List AmpLine) := [("A_B.csv", [.text "OLD"])]

/-- Amplitude variant, `startSession` clicked with identity `A`/`B`
while `A_B.csv` already exists on disk. -/
def c2state : AmpState :=
  ampStartSession (ampSetInputs "A" "B" (.int 30) { ampConnect ampInit with fs := ampExistingFs })

/-- The state after then clicking `End session` in that session. -/
def c2end : AmpState := (ampEndSession c2state).toOption.getD ampInit

/-- Amplitude variant: a full first session (connect, identity `P`/`S1`,
start, send, one saved measure (amplitude 5, measurement 7)). -/
def c9s1 : AmpState :=
  ampAddMeasure (ampSetTrialInputs 5 7
    (ampSendWaveform (ampStartSession (ampSetInputs "P" "S1" (.int 30) (ampConnect ampInit)))))

/-- ... after its `endSession`. -/
def c9end : AmpState := (ampEndSession c9s1).toOption.getD ampInit

/-- ... a second session `P`/`S2` with one further saved measure
(amplitude 9, measurement 11). -/
def c9s2 : AmpState :=
  ampAddMeasure (ampSetTrialInputs 9 11
    (ampStartSession (ampSetInputs "P" "S2" (.int 30) (ampConnect c9end))))

/-- ... after the second `endSession`. -/
def c9end2 : AmpState := (ampEndSession c9s2).toOption.getD ampInit

/-- Calibration variant: session started for participant `P` with the
default session radio value `Hyomental` and no trial recorded yet. -/
def c3pre : HypoState :=
  (hypoStartSession rand0 (hypoSetInputs "P" "Hyomental" (.int 30) (hypoConnect hypoInit))).toOption.getD hypoInit

/-- ... after `endSession` with zero recorded trials. -/
def c3end : HypoState := (hypoEndSession c3pre).toOption.getD hypoInit

/-- Calibration variant: the state at the end of a completed session,
all `NUM_MEASURES` trials recorded (cursor at `NUM_MEASURES`). -/
def c5post : HypoState :=
  { hypoInit with
    itf := { hypoInit.itf with
               amplitude_id := NUM_MEASURES,
               multipliers := List.range NUM_MEASURES,
               measures := List.replicate NUM_MEASURES 3 } }

/-- The concrete C7 scenario, amended to a session value the variant
accepts: participant `P1`, session radio `Hyomental`, age 34 (the sex
radio defaults to `Male`). -/
def c7s0 : HypoState := hypoSetInputs "P1" "Hyomental" (.int 34) (hypoConnect hypoInit)

/-- The C7 scenario exactly as the specification words it: session ID
`S1` (a value the session radio of this variant cannot even produce). -/
def c7s0Lit : HypoState := hypoSetInputs "P1" "S1" (.int 34) (hypoConnect hypoInit)

/-! ## Theorems -/

/-- On nonnegative rationals, Python `int()` truncation coincides with
the floor. -/
theorem pyInt_eq_floor (q : ℚ) (h : 0 ≤ q) : pyInt q = ⌊q⌋ := by
  have hnum : 0 ≤ q.num := Rat.num_nonneg.mpr h
  rw [Rat.floor_def]
  unfold pyInt
  rw [if_pos hnum]
  conv_rhs => rw [← Int.toNat_of_nonneg hnum]
  rfl

/-- Reading back the file just written. -/
theorem fsRead_fsWrite {α : Type} (fs : FS α) (p : String) (c : α) :
    fsRead (fsWrite fs p c) p = some c := by
  induction fs with
  | nil => simp [fsWrite, fsRead]
  | cons e rest ih =>
    obtain ⟨q, c₀⟩ := e
    by_cases hq : q == p
    · simp [fsWrite, fsRead, hq]
    · simp [fsWrite, fsRead, hq, ih]

/-- Overwriting one list position, counted: the new element replaces the
old one and every other multiplicity is unchanged. -/
theorem count_set_add {α : Type} [DecidableEq α] (l : List α) (i : Nat) (b x : α)
    (h : i < l.length) :
    (l.set i b).count x + (if l[i] = x then 1 else 0)
      = l.count x + (if b = x then 1 else 0) := by
  induction l generalizing i with
  | nil => simp at h
  | cons c t ih =>
    cases i with
    | zero =>
      simp only [List.set_cons_zero, List.count_cons, List.getElem_cons_zero, beq_iff_eq]
      split_ifs <;> omega
    | succ n =>
      have hn : n < t.length := by simpa using h
      have ht := ih n hn
      simp only [List.set_cons_succ, List.count_cons, List.getElem_cons_succ, beq_iff_eq]
      split_ifs at ht ⊢ <;> omega

/-- Swapping two positions never changes multiplicities. -/
theorem listSwap_count {α : Type} [DecidableEq α] (l : List α) (i j : Nat) (x : α) :
    (listSwap l i j).count x = l.count x := by
  unfold listSwap
  cases hi : l[i]? with
  | none => rfl
  | some a =>
    cases hj : l[j]? with
    | none => rfl
    | some b =>
      have hil : i < l.length := (List.getElem?_eq_some.mp hi).1
      have hjl : j < l.length := (List.getElem?_eq_some.mp hj).1
      have ha : l[i] = a := (List.getElem?_eq_some.mp hi).2
      have hb : l[j] = b := (List.getElem?_eq_some.mp hj).2
      have h1 := count_set_add l i b x hil
      have h2 := count_set_add (l.set i b) j a x (by simpa using hjl)
      have hjl2 : j < (l.set i b).length := by simpa using hjl
      have hsb : (l.set i b)[j] = b := by
        by_cases hij : i = j
        · subst hij
          exact List.getElem_set_self (by simpa using hjl)
        · rw [List.getElem_set_ne hij]
          exact hb
      rw [ha] at h1
      rw [hsb] at h2
      show ((l.set i b).set j a).count x = l.count x
      split_ifs at h1 h2 <;> omega

/-- The Fisher-Yates pass never changes multiplicities. -/
theorem fyFrom_count {α : Type} [DecidableEq α] (rand : Nat → Nat) (x : α) :
    ∀ (n : Nat) (l : List α), (fyFrom rand l n).count x = l.count x := by
  intro n
  induction n with
  | zero => intro l; rfl
  | succ m ih =>
    intro l
    rw [fyFrom, ih, listSwap_count]

/-- The shuffle never changes multiplicities. -/
theorem fyShuffle_count {α : Type} [DecidableEq α] (rand : Nat → Nat) (l : List α) (x : α) :
    (fyShuffle rand l).count x = l.count x :=
  fyFrom_count rand x (l.length - 1) l

/-- Swapping preserves length. -/
theorem listSwap_length {α : Type} (l : List α) (i j : Nat) :
    (listSwap l i j).length = l.length := by
  unfold listSwap
  cases hi : l[i]? with
  | none => rfl
  | some a => cases hj : l[j]? with
    | none => rfl
    | some b => simp

/-- The Fisher-Yates pass preserves length. -/
theorem fyFrom_length {α : Type} (rand : Nat → Nat) :
    ∀ (n : Nat) (l : List α), (fyFrom rand l n).length = l.length := by
  intro n
  induction n with
  | zero => intro l; rfl
  | succ m ih =>
    intro l
    rw [fyFrom, ih, listSwap_length]

/-- The shuffle preserves length. -/
theorem fyShuffle_length {α : Type} (rand : Nat → Nat) (l : List α) :
    (fyShuffle rand l).length = l.length :=
  fyFrom_length rand (l.length - 1) l

/-- Every element of a shuffled `range n` is below `n`. -/
theorem fyShuffle_range_mem_lt (rand : Nat → Nat) (n x : Nat)
    (hx : x ∈ fyShuffle rand (List.range n)) : x < n := by
  have hpos : 0 < (fyShuffle rand (List.range n)).count x :=
    List.count_pos_iff.mpr hx
  rw [fyShuffle_count] at hpos
  exact List.mem_range.mp (List.count_pos_iff.mp hpos)

/-- A shuffled `range n` has no duplicates. -/
theorem fyShuffle_range_nodup (rand : Nat → Nat) (n : Nat) :
    (fyShuffle rand (List.range n)).Nodup := by
  rw [List.nodup_iff_count_eq_one]
  intro a ha
  rw [fyShuffle_count]
  exact List.count_eq_one_of_mem (List.nodup_range n) (by
    exact List.mem_range.mpr (fyShuffle_range_mem_lt rand n a ha))

/-- C4: for all `N, R ≥ 1`, the shuffle performed at `startSession`
(`np.random.shuffle` over the `np.arange(N·R)` administration array,
any random source) returns a permutation of the canonical indices
`0 .. N·R − 1`: the order keeps length `N·R` and every canonical index
below `N·R` appears in it exactly once. -/
theorem C4_shuffle_is_permutation (N R : Nat) (hN : 1 ≤ N) (hR : 1 ≤ R)
    (rand : Nat → Nat) (i : Nat) (hi : i < N * R) :
    (fyShuffle rand (List.range (N * R))).length = N * R ∧
    (fyShuffle rand (List.range (N * R))).count i = 1 := by
  constructor
  · rw [fyShuffle_length, List.length_range]
  · rw [fyShuffle_count]
    exact List.count_eq_one_of_mem (List.nodup_range (N * R)) (List.mem_range.mpr hi)

/-- Witness for C4 at `N = 9`, `R = 3`, canonical index 7 and a concrete
random source. -/
theorem C4_shuffle_is_permutation_witness :
    (fyShuffle (fun k => 5 * k + 2) (List.range (9 * 3))).length = 9 * 3 ∧
    (fyShuffle (fun k => 5 * k + 2) (List.range (9 * 3))).count 7 = 1 :=
  C4_shuffle_is_permutation 9 3 (by decide) (by decide) (fun k => 5 * k + 2) 7 (by decide)

/-- While `ready` is false, any number of listener iterations touches
neither the telemetry state nor the pending device lines. -/
theorem monitorRun_not_ready (n : Nat) (st : MonitorState × List String) :
    monitorRun false n st = st := by
  induction n generalizing st with
  | zero => rfl
  | succ m ih =>
    rw [monitorRun]
    rw [show monitorIter false st = st from by unfold monitorIter; simp]
    exact ih st

/-- C10: while `interface.ready` is false the telemetry listener never
reads a device line and never mutates telemetry state; `ready` starts
false, is set true only at the end of a successful `send_waveform`, and
is reset false by `endSession`. -/
theorem C10_listener_gated_by_ready :
    ampInit.itf.ready = false ∧
    (∀ s : AmpState, (ampSendWaveform s).itf.ready = true) ∧
    (∀ s s' : AmpState, ampEndSession s = .ok s' → s'.itf.ready = false) ∧
    (∀ (n : Nat) (m : MonitorState) (pending : List String),
        monitorRun false n (m, pending) = (m, pending)) := by
  refine ⟨rfl, fun s => rfl, ?_, fun n m pending => monitorRun_not_ready n (m, pending)⟩
  intro s s' h
  unfold ampEndSession at h
  split at h
  · exact absurd h (by simp)
  · split at h
    · cases h; rfl
    · exact absurd h (by simp)

/-- Witness for C10: the implication hypothesis discharged at the
concrete ended session `c2state ⟶ c2end`. -/
theorem C10_listener_gated_by_ready_witness :
    c2end.itf.ready = false ∧
    monitorRun false 4 (mReady, ["On", "17", "Off"]) = (mReady, ["On", "17", "Off"]) :=
  ⟨C10_listener_gated_by_ready.2.2.1 c2state c2end rfl,
   C10_listener_gated_by_ready.2.2.2 4 mReady ["On", "17", "Off"]⟩

/-- C8 (code evaluation at the failing input): the greeting comparison
`val == interface.greeting` compares the decoded `str` with the `bytes`
literal `b'Hello'` and is therefore always false — the raw line
`b'Hello'` is *not* recognised: it falls through the `'On'`/`'Off'`
tests and the integer parse and is silently discarded (only the
unconditional `print(val)` happens; `"Greeting received"` is never
printed and no state changes).  The other classifications do behave as
described: `'On'`/`'Off'` lines toggle the stimulation flag and an
integer line updates the current amplitude, while garbage is discarded
without raising. -/
theorem C8_greeting_branch_unreachable :
    monitorStep "Hello" mReady = { mReady with printed := ["Hello"] } ∧
    "Greeting received" ∉ (monitorStep "Hello" mReady).printed ∧
    (monitorStep "On\r\n" mReady).stimulationStatus = "On" ∧
    (monitorStep "Off\r\n" (monitorStep "On\r\n" mReady)).stimulationStatus = "Off" ∧
    (monitorStep "50\r\n" mReady).current_amplitude = 50 ∧
    monitorStep "garbage\r\n" mReady = { mReady with printed := ["garbage\r\n"] } := by
  refine ⟨?_, ?_, ?_, ?_, ?_, ?_⟩ <;> decide

/-- C1 (code evaluation at the failing input): in the amplitude variant,
`startSession` with an empty participant ID *still* transitions — the
callback never consults `interface.inputCheck`, so after `parseInputs`
flags the failure the session status becomes `Started`, the
`Enter participant ID` message is overwritten by `Session started`, and
the trial controls (`Send`, `End session`) are enabled. -/
theorem C1_empty_participant_still_starts :
    c1state.itf.inputCheck = false ∧
    c1state.ui.sessionStatus = "Started" ∧
    c1state.ui.overallStatus = "Session started" ∧
    c1state.ui.sendEnabled = true ∧
    c1state.ui.endEnabled = true ∧
    c1state.ui.participantEnabled = false := by
  refine ⟨?_, ?_, ?_, ?_, ?_, ?_⟩ <;> rfl

/-- C2 (code evaluation at the failing input): in the amplitude variant,
`startSession` targeting the existing `A_B.csv` flags the failure but
still enables `End session`; the subsequent `endSession` opens that very
path in `'w'` mode and replaces its contents. -/
theorem C2_existing_file_overwritten :
    c2state.itf.inputCheck = false ∧
    c2state.itf.filename = some "A_B.csv" ∧
    c2state.ui.endEnabled = true ∧
    c2state.ui.overallStatus = "Session started" ∧
    ampEndSession c2state = .ok c2end ∧
    fsRead c2end.fs "A_B.csv" = some (ampFileOf c2state) ∧
    fsRead c2end.fs "A_B.csv" ≠ some [AmpLine.text "OLD"] := by
  refine ⟨rfl, rfl, rfl, rfl, rfl, ?_, ?_⟩
  · rfl
  · decide

/-- C9 (code evaluation at the failing input): `endSession` in the
amplitude variant never clears the accumulated `amplitudes`/`measures`/
`num_measures` and never re-enables the identity inputs; a second
session therefore starts with the first session's records still in
place, and its dataset contains the previous session's row. -/
theorem C9_end_session_keeps_records :
    ampEndSession c9s1 = .ok c9end ∧
    c9end.itf.num_measures = 1 ∧
    c9end.itf.measures = [7] ∧
    c9end.itf.amplitudes = [5] ∧
    c9end.ui.participantEnabled = false ∧
    c9end.ui.sessionEnabled = false ∧
    ampEndSession c9s2 = .ok c9end2 ∧
    c9end2.itf.num_measures = 2 ∧
    fsRead c9end2.fs "P_S2.csv"
      = some (ampFileOf c9s2) ∧
    (ampFileOf c9s2).drop 7 = [AmpLine.row 5 7, AmpLine.row 9 11] := by
  refine ⟨rfl, rfl, rfl, rfl, rfl, rfl, rfl, rfl, ?_, ?_⟩ <;> rfl

/-- Determine an integer floor from explicit bounds. -/
theorem floor_eq_of (x : ℚ) (z : ℤ) (h1 : (z : ℚ) ≤ x) (h2 : x < z + 1) : ⌊x⌋ = z :=
  Int.floor_eq_iff.mpr ⟨h1, h2⟩

/-- Rounding to nearest: the fractional part is below a half. -/
theorem roundHalfEven_eq_down (m : ℚ) (f : ℤ) (hf : ⌊m⌋ = f) (h : m - f < 1/2) :
    roundHalfEven m = f := by
  unfold roundHalfEven
  rw [hf, if_pos h]

/-- Rounding to nearest: the fractional part is above a half. -/
theorem roundHalfEven_eq_up (m : ℚ) (f : ℤ) (hf : ⌊m⌋ = f) (h : 1/2 < m - f) :
    roundHalfEven m = f + 1 := by
  unfold roundHalfEven
  rw [hf, if_neg (by linarith), if_pos h]

/-- Rounding to nearest on an exact tie at an odd significand: up to the
even neighbour. -/
theorem roundHalfEven_eq_tie_odd (m : ℚ) (f : ℤ) (hf : ⌊m⌋ = f) (h : m - f = 1/2)
    (hodd : f % 2 = 1) : roundHalfEven m = f + 1 := by
  unfold roundHalfEven
  rw [hf, if_neg (by rw [h]; norm_num), if_neg (by rw [h]; norm_num), if_neg (by omega)]

/-- Determine the binary exponent from explicit power-of-two bounds. -/
theorem Int_log2_eq (x : ℚ) (e : ℤ) (hx : 0 < x) (h1 : (2 : ℚ) ^ e ≤ x)
    (h2 : x < (2 : ℚ) ^ (e + 1)) : Int.log 2 x = e := by
  have hb : 1 < 2 := by norm_num
  have hle : e ≤ Int.log 2 x := (Int.zpow_le_iff_le_log hb hx).mp (by exact_mod_cast h1)
  have hlt : Int.log 2 x < e + 1 := by
    by_contra hc
    push_neg at hc
    have h2' : ((2 : ℕ) : ℚ) ^ (e + 1) ≤ x := (Int.zpow_le_iff_le_log hb hx).mpr hc
    norm_num at h2'
    linarith
  omega

/-- Evaluate one correctly rounded result from its exponent bounds and
its rounded significand. -/
theorem fl64round_eq_of (x : ℚ) (e n : ℤ) (hx : 0 < x) (h1 : (2 : ℚ) ^ e ≤ x)
    (h2 : x < (2 : ℚ) ^ (e + 1))
    (hr : roundHalfEven (x * 2 ^ ((52 : ℤ) - e)) = n) :
    fl64round x = (n : ℚ) * 2 ^ (e - 52) := by
  unfold fl64round
  rw [if_neg (ne_of_gt hx), if_pos hx, Int_log2_eq x e hx h1 h2, hr]

/-- Rounding to nearest preserves nonnegativity. -/
theorem roundHalfEven_nonneg (m : ℚ) (h : 0 ≤ m) : 0 ≤ roundHalfEven m := by
  unfold roundHalfEven
  have hf : 0 ≤ ⌊m⌋ := Int.floor_nonneg.mpr h
  split_ifs <;> omega

/-- Correct rounding preserves nonnegativity. -/
theorem fl64round_nonneg (x : ℚ) (h : 0 ≤ x) : 0 ≤ fl64round x := by
  unfold fl64round
  rcases eq_or_lt_of_le h with heq | hlt
  · rw [if_pos heq.symm]
  · rw [if_neg (ne_of_gt hlt), if_pos hlt]
    have hm : 0 ≤ x * 2 ^ ((52 : ℤ) - Int.log 2 x) := by positivity
    have hn := roundHalfEven_nonneg _ hm
    have h2 : (0 : ℚ) < 2 ^ (Int.log 2 x - 52) := by positivity
    exact mul_nonneg (by exact_mod_cast hn) (le_of_lt h2)

/-- A float64 product of nonnegative factors is nonnegative. -/
theorem fl64mul_nonneg (a b : ℚ) (ha : 0 ≤ a) (hb : 0 ≤ b) : 0 ≤ fl64mul a b :=
  fl64round_nonneg _ (mul_nonneg ha hb)

/-- The double nearest `0.1`. -/
theorem fl64round_t1 : fl64round (1/10) = 7205759403792794 / 2 ^ 56 := by
  have h := fl64round_eq_of (1/10) (-4) 7205759403792794 (by norm_num)
    (by norm_num) (by norm_num)
    (roundHalfEven_eq_up _ 7205759403792793
      (floor_eq_of _ _ (by norm_num) (by norm_num)) (by norm_num))
  rw [h]; norm_num

/-- The double nearest `0.2`. -/
theorem fl64round_t2 : fl64round (2/10) = 7205759403792794 / 2 ^ 55 := by
  have h := fl64round_eq_of (2/10) (-3) 7205759403792794 (by norm_num)
    (by norm_num) (by norm_num)
    (roundHalfEven_eq_up _ 7205759403792793
      (floor_eq_of _ _ (by norm_num) (by norm_num)) (by norm_num))
  rw [h]; norm_num

/-- The double nearest `0.3`. -/
theorem fl64round_t3 : fl64round (3/10) = 5404319552844595 / 2 ^ 54 := by
  have h := fl64round_eq_of (3/10) (-2) 5404319552844595 (by norm_num)
    (by norm_num) (by norm_num)
    (roundHalfEven_eq_down _ 5404319552844595
      (floor_eq_of _ _ (by norm_num) (by norm_num)) (by norm_num))
  rw [h]; norm_num

/-- The double nearest `0.4`. -/
theorem fl64round_t4 : fl64round (4/10) = 7205759403792794 / 2 ^ 54 := by
  have h := fl64round_eq_of (4/10) (-2) 7205759403792794 (by norm_num)
    (by norm_num) (by norm_num)
    (roundHalfEven_eq_up _ 7205759403792793
      (floor_eq_of _ _ (by norm_num) (by norm_num)) (by norm_num))
  rw [h]; norm_num

/-- The double nearest `0.5` (exact). -/
theorem fl64round_t5 : fl64round (5/10) = 4503599627370496 / 2 ^ 53 := by
  have h := fl64round_eq_of (5/10) (-1) 4503599627370496 (by norm_num)
    (by norm_num) (by norm_num)
    (roundHalfEven_eq_down _ 4503599627370496
      (floor_eq_of _ _ (by norm_num) (by norm_num)) (by norm_num))
  rw [h]; norm_num

/-- The double nearest `0.6`. -/
theorem fl64round_t6 : fl64round (6/10) = 5404319552844595 / 2 ^ 53 := by
  have h := fl64round_eq_of (6/10) (-1) 5404319552844595 (by norm_num)
    (by norm_num) (by norm_num)
    (roundHalfEven_eq_down _ 5404319552844595
      (floor_eq_of _ _ (by norm_num) (by norm_num)) (by norm_num))
  rw [h]; norm_num

/-- The double nearest `0.7` (strictly below `7/10`). -/
theorem fl64round_t7 : fl64round (7/10) = 6305039478318694 / 2 ^ 53 := by
  have h := fl64round_eq_of (7/10) (-1) 6305039478318694 (by norm_num)
    (by norm_num) (by norm_num)
    (roundHalfEven_eq_down _ 6305039478318694
      (floor_eq_of _ _ (by norm_num) (by norm_num)) (by norm_num))
  rw [h]; norm_num

/-- The double nearest `0.8`. -/
theorem fl64round_t8 : fl64round (8/10) = 7205759403792794 / 2 ^ 53 := by
  have h := fl64round_eq_of (8/10) (-1) 7205759403792794 (by norm_num)
    (by norm_num) (by norm_num)
    (roundHalfEven_eq_up _ 7205759403792793
      (floor_eq_of _ _ (by norm_num) (by norm_num)) (by norm_num))
  rw [h]; norm_num

/-- The double nearest `0.9`. -/
theorem fl64round_t9 : fl64round (9/10) = 8106479329266893 / 2 ^ 53 := by
  have h := fl64round_eq_of (9/10) (-1) 8106479329266893 (by norm_num)
    (by norm_num) (by norm_num)
    (roundHalfEven_eq_up _ 8106479329266892
      (floor_eq_of _ _ (by norm_num) (by norm_num)) (by norm_num))
  rw [h]; norm_num

/-- Truncating a nonnegative integer-valued rational. -/
theorem pyInt_eq_self (v : ℤ) (h : 0 ≤ v) : pyInt ((v : ℤ) : ℚ) = v := by
  rw [pyInt_eq_floor _ (by exact_mod_cast h)]
  exact Int.floor_intCast v

/-- Every multiplier in the base list is nonnegative. -/
theorem multiplierBase_nonneg : ∀ q ∈ multiplierBase, 0 ≤ q := by
  intro q hq
  fin_cases hq <;> norm_num

/-- Every element of the float64 multiplier list is nonnegative. -/
theorem multiplierBaseD_nonneg : ∀ q ∈ multiplierBaseD, 0 ≤ q := by
  intro q hq
  obtain ⟨b, hb, rfl⟩ := List.mem_map.mp hq
  exact fl64round_nonneg b (multiplierBase_nonneg b hb)

/-- Every tiled multiplier is nonnegative. -/
theorem multiplier_values_nonneg : ∀ q ∈ multiplier_values, 0 ≤ q := by
  intro q hq
  rcases List.mem_append.mp hq with h | h
  · rcases List.mem_append.mp h with h' | h'
    · exact multiplierBaseD_nonneg q h'
    · exact multiplierBaseD_nonneg q h'
  · exact multiplierBaseD_nonneg q h

/-- Reading any position of the multiplier table gives a nonnegative
value. -/
theorem mv_getD_nonneg (idx : Nat) : 0 ≤ multiplier_values.getD idx 0 := by
  by_cases h : idx < multiplier_values.length
  · rw [List.getD_eq_getElem _ _ h]
    exact multiplier_values_nonneg _ (multiplier_values.getElem_mem h)
  · rw [List.getD_eq_default _ _ (le_of_not_lt h)]

/-- The callback `endSession` of the calibration variant succeeds whenever the
session attributes exist, and persists exactly `hypoFileOf`. -/
theorem hypoEndSession_spec (s : HypoState) (st fn : String)
    (hst : s.itf.sessionType = some st) (hfn : s.itf.filename = some fn)
    (hm : s.itf.measures.length = NUM_MEASURES) :
    ∃ s', hypoEndSession s = .ok s' ∧
      fsRead s'.fs fn = some (hypoFileOf st s) ∧
      s'.itf.measures = s.itf.measures ∧
      s'.itf.amplitude_id = s.itf.amplitude_id := by
  unfold hypoEndSession
  rw [hst, hfn]
  dsimp only
  rw [if_pos hm]
  exact ⟨_, rfl, fsRead_fsWrite s.fs fn _, rfl, rfl⟩

/-- The trial-row segment of the persisted calibration dataset: the row
at offset `6 + idx` belongs to canonical index `idx`, with amplitude
`int(threshold * multiplier_values[idx])` and the measure stored under
canonical index `idx`. -/
theorem hypoFileOf_trial_row (s : HypoState) (st : String) (idx : Nat)
    (h : idx < NUM_MEASURES) :
    (hypoFileOf st s)[6 + idx]? =
      some (.row (pyInt (fl64mul (s.ui.toleranceValue : ℚ) (multiplier_values.getD idx 0)))
             (multiplier_values.getD idx 0) (s.itf.measures.getD idx 0)) := by
  unfold hypoFileOf
  rw [List.getElem?_append_right (by simp)]
  simp only [List.length_cons, List.length_nil]
  have h6 : 6 + idx - 6 = idx := by omega
  rw [h6, List.getElem?_map, List.getElem?_range h]
  rfl

/-- The persisted calibration dataset always carries one trial row per
canonical index: the segment after the two header blocks, the baseline
row and the calibration row has length `NUM_MEASURES`. -/
theorem hypoFileOf_trial_rows_length (s : HypoState) (st : String) :
    ((hypoFileOf st s).drop 6).length = NUM_MEASURES := by
  unfold hypoFileOf
  simp

/-- Binary64 product `90 * double(0.7)`: the exact product
`62.99999999999999289...` sits below the midpoint, so it rounds down,
strictly below `63`. -/
theorem fl64mul_90_t7 :
    fl64mul 90 (6305039478318694 / 2 ^ 53) = 8866461766385663 / 2 ^ 47 := by
  unfold fl64mul
  have h := fl64round_eq_of (90 * (6305039478318694 / 2 ^ 53)) 5 8866461766385663
    (by norm_num) (by norm_num) (by norm_num)
    (roundHalfEven_eq_down _ 8866461766385663
      (floor_eq_of _ _ (by norm_num) (by norm_num)) (by norm_num))
  rw [h]; norm_num

/-- Binary64 product `40 * double(0.1) = 4.0`. -/
theorem fl64mul40_1 : fl64mul 40 (7205759403792794 / 2 ^ 56) = 4 := by
  unfold fl64mul
  have h := fl64round_eq_of (40 * (7205759403792794 / 2 ^ 56)) 2 4503599627370496
    (by norm_num) (by norm_num) (by norm_num)
    (roundHalfEven_eq_down _ 4503599627370496
      (floor_eq_of _ _ (by norm_num) (by norm_num)) (by norm_num))
  rw [h]; norm_num

/-- Binary64 product `40 * double(0.2) = 8.0`. -/
theorem fl64mul40_2 : fl64mul 40 (7205759403792794 / 2 ^ 55) = 8 := by
  unfold fl64mul
  have h := fl64round_eq_of (40 * (7205759403792794 / 2 ^ 55)) 3 4503599627370496
    (by norm_num) (by norm_num) (by norm_num)
    (roundHalfEven_eq_down _ 4503599627370496
      (floor_eq_of _ _ (by norm_num) (by norm_num)) (by norm_num))
  rw [h]; norm_num

/-- Binary64 product `40 * double(0.3) = 12.0`. -/
theorem fl64mul40_3 : fl64mul 40 (5404319552844595 / 2 ^ 54) = 12 := by
  unfold fl64mul
  have h := fl64round_eq_of (40 * (5404319552844595 / 2 ^ 54)) 3 6755399441055744
    (by norm_num) (by norm_num) (by norm_num)
    (roundHalfEven_eq_up _ 6755399441055743
      (floor_eq_of _ _ (by norm_num) (by norm_num)) (by norm_num))
  rw [h]; norm_num

/-- Binary64 product `40 * double(0.4) = 16.0`. -/
theorem fl64mul40_4 : fl64mul 40 (7205759403792794 / 2 ^ 54) = 16 := by
  unfold fl64mul
  have h := fl64round_eq_of (40 * (7205759403792794 / 2 ^ 54)) 4 4503599627370496
    (by norm_num) (by norm_num) (by norm_num)
    (roundHalfEven_eq_down _ 4503599627370496
      (floor_eq_of _ _ (by norm_num) (by norm_num)) (by norm_num))
  rw [h]; norm_num

/-- Binary64 product `40 * double(0.5) = 20.0` (exact). -/
theorem fl64mul40_5 : fl64mul 40 (4503599627370496 / 2 ^ 53) = 20 := by
  unfold fl64mul
  have h := fl64round_eq_of (40 * (4503599627370496 / 2 ^ 53)) 4 5629499534213120
    (by norm_num) (by norm_num) (by norm_num)
    (roundHalfEven_eq_down _ 5629499534213120
      (floor_eq_of _ _ (by norm_num) (by norm_num)) (by norm_num))
  rw [h]; norm_num

/-- Binary64 product `40 * double(0.6) = 24.0`. -/
theorem fl64mul40_6 : fl64mul 40 (5404319552844595 / 2 ^ 53) = 24 := by
  unfold fl64mul
  have h := fl64round_eq_of (40 * (5404319552844595 / 2 ^ 53)) 4 6755399441055744
    (by norm_num) (by norm_num) (by norm_num)
    (roundHalfEven_eq_up _ 6755399441055743
      (floor_eq_of _ _ (by norm_num) (by norm_num)) (by norm_num))
  rw [h]; norm_num

/-- Binary64 product `40 * double(0.7) = 28.0`: the exact product is a
tie (`27.999999999999996...` has significand fraction exactly one half)
and the odd significand rounds up to the even neighbour `28.0`. -/
theorem fl64mul40_7 : fl64mul 40 (6305039478318694 / 2 ^ 53) = 28 := by
  unfold fl64mul
  have h := fl64round_eq_of (40 * (6305039478318694 / 2 ^ 53)) 4 7881299347898368
    (by norm_num) (by norm_num) (by norm_num)
    (roundHalfEven_eq_tie_odd _ 7881299347898367
      (floor_eq_of _ _ (by norm_num) (by norm_num)) (by norm_num) (by norm_num))
  rw [h]; norm_num

/-- Binary64 product `40 * double(0.8) = 32.0`. -/
theorem fl64mul40_8 : fl64mul 40 (7205759403792794 / 2 ^ 53) = 32 := by
  unfold fl64mul
  have h := fl64round_eq_of (40 * (7205759403792794 / 2 ^ 53)) 5 4503599627370496
    (by norm_num) (by norm_num) (by norm_num)
    (roundHalfEven_eq_down _ 4503599627370496
      (floor_eq_of _ _ (by norm_num) (by norm_num)) (by norm_num))
  rw [h]; norm_num

/-- Binary64 product `40 * double(0.9) = 36.0`. -/
theorem fl64mul40_9 : fl64mul 40 (8106479329266893 / 2 ^ 53) = 36 := by
  unfold fl64mul
  have h := fl64round_eq_of (40 * (8106479329266893 / 2 ^ 53)) 5 5066549580791808
    (by norm_num) (by norm_num) (by norm_num)
    (roundHalfEven_eq_down _ 5066549580791808
      (floor_eq_of _ _ (by norm_num) (by norm_num)) (by norm_num))
  rw [h]; norm_num

/-- At threshold 40, truncating the float64 product over the multiplier
of nominal value `0.1` agrees with the exact floor. -/
theorem agree1 : pyInt (fl64mul 40 (fl64round (1/10))) = ⌊(40 : ℚ) * (1/10)⌋ := by
  rw [fl64round_t1, fl64mul40_1, pyInt_eq_floor _ (by norm_num),
      floor_eq_of (4 : ℚ) 4 (by norm_num) (by norm_num),
      floor_eq_of ((40 : ℚ) * (1/10)) 4 (by norm_num) (by norm_num)]

/-- At threshold 40, the float64 and exact amplitudes agree at `0.2`. -/
theorem agree2 : pyInt (fl64mul 40 (fl64round (2/10))) = ⌊(40 : ℚ) * (2/10)⌋ := by
  rw [fl64round_t2, fl64mul40_2, pyInt_eq_floor _ (by norm_num),
      floor_eq_of (8 : ℚ) 8 (by norm_num) (by norm_num),
      floor_eq_of ((40 : ℚ) * (2/10)) 8 (by norm_num) (by norm_num)]

/-- At threshold 40, the float64 and exact amplitudes agree at `0.3`. -/
theorem agree3 : pyInt (fl64mul 40 (fl64round (3/10))) = ⌊(40 : ℚ) * (3/10)⌋ := by
  rw [fl64round_t3, fl64mul40_3, pyInt_eq_floor _ (by norm_num),
      floor_eq_of (12 : ℚ) 12 (by norm_num) (by norm_num),
      floor_eq_of ((40 : ℚ) * (3/10)) 12 (by norm_num) (by norm_num)]

/-- At threshold 40, the float64 and exact amplitudes agree at `0.4`. -/
theorem agree4 : pyInt (fl64mul 40 (fl64round (4/10))) = ⌊(40 : ℚ) * (4/10)⌋ := by
  rw [fl64round_t4, fl64mul40_4, pyInt_eq_floor _ (by norm_num),
      floor_eq_of (16 : ℚ) 16 (by norm_num) (by norm_num),
      floor_eq_of ((40 : ℚ) * (4/10)) 16 (by norm_num) (by norm_num)]

/-- At threshold 40, the float64 and exact amplitudes agree at `0.5`. -/
theorem agree5 : pyInt (fl64mul 40 (fl64round (5/10))) = ⌊(40 : ℚ) * (5/10)⌋ := by
  rw [fl64round_t5, fl64mul40_5, pyInt_eq_floor _ (by norm_num),
      floor_eq_of (20 : ℚ) 20 (by norm_num) (by norm_num),
      floor_eq_of ((40 : ℚ) * (5/10)) 20 (by norm_num) (by norm_num)]

/-- At threshold 40, the float64 and exact amplitudes agree at `0.6`. -/
theorem agree6 : pyInt (fl64mul 40 (fl64round (6/10))) = ⌊(40 : ℚ) * (6/10)⌋ := by
  rw [fl64round_t6, fl64mul40_6, pyInt_eq_floor _ (by norm_num),
      floor_eq_of (24 : ℚ) 24 (by norm_num) (by norm_num),
      floor_eq_of ((40 : ℚ) * (6/10)) 24 (by norm_num) (by norm_num)]

/-- At threshold 40, the float64 and exact amplitudes agree at `0.7` —
the exact tie `40 * double(0.7)` rounds up to `28.0` exactly, so the
truncation stays at `⌊28⌋ = ⌊40 * 7/10⌋ = 28`. -/
theorem agree7 : pyInt (fl64mul 40 (fl64round (7/10))) = ⌊(40 : ℚ) * (7/10)⌋ := by
  rw [fl64round_t7, fl64mul40_7, pyInt_eq_floor _ (by norm_num),
      floor_eq_of (28 : ℚ) 28 (by norm_num) (by norm_num),
      floor_eq_of ((40 : ℚ) * (7/10)) 28 (by norm_num) (by norm_num)]

/-- At threshold 40, the float64 and exact amplitudes agree at `0.8`. -/
theorem agree8 : pyInt (fl64mul 40 (fl64round (8/10))) = ⌊(40 : ℚ) * (8/10)⌋ := by
  rw [fl64round_t8, fl64mul40_8, pyInt_eq_floor _ (by norm_num),
      floor_eq_of (32 : ℚ) 32 (by norm_num) (by norm_num),
      floor_eq_of ((40 : ℚ) * (8/10)) 32 (by norm_num) (by norm_num)]

/-- At threshold 40, the float64 and exact amplitudes agree at `0.9`. -/
theorem agree9 : pyInt (fl64mul 40 (fl64round (9/10))) = ⌊(40 : ℚ) * (9/10)⌋ := by
  rw [fl64round_t9, fl64mul40_9, pyInt_eq_floor _ (by norm_num),
      floor_eq_of (36 : ℚ) 36 (by norm_num) (by norm_num),
      floor_eq_of ((40 : ℚ) * (9/10)) 36 (by norm_num) (by norm_num)]

/-- At calibrated threshold 40, every trial amplitude the code computes
(truncation of the binary64 product) coincides with the spec's
`⌊threshold * multiplier⌋` over the exact design multipliers. -/
theorem amplitude40_agrees : ∀ k, k < NUM_MEASURES →
    pyInt (fl64mul 40 (multiplier_values.getD k 0))
      = ⌊(40 : ℚ) * multiplier_values_exact.getD k 0⌋ := by
  intro k hk
  have hk27 : k < 27 := hk
  interval_cases k <;> first
    | exact agree1 | exact agree2 | exact agree3 | exact agree4 | exact agree5
    | exact agree6 | exact agree7 | exact agree8 | exact agree9

set_option maxRecDepth 40000 in
/-- C6 counterexample: at calibrated threshold 90 the trial row of
canonical index 6 (nominal multiplier `0.7`) is persisted with amplitude
`62`, because `90 * double(0.7)` is `62.99999999999999289...` in
binary64 and `int()` truncates — whereas the claimed amplitude formula
`⌊threshold * multiplier⌋` over the exact design multiplier gives `63`. -/
theorem C6_counterexample_threshold90 :
    ∃ s', hypoEndSession (hypoSetTolerance 90 c3pre) = .ok s' ∧
      (fsRead s'.fs "P_hyomental.csv").map (fun f => f[6 + 6]?) =
        some (some (.row 62 (multiplier_values.getD 6 0) 0)) ∧
      ⌊(90 : ℚ) * multiplier_values_exact.getD 6 0⌋ = 63 := by
  obtain ⟨s', h1, h2, -, -⟩ :=
    hypoEndSession_spec (hypoSetTolerance 90 c3pre) "hyomental" "P_hyomental.csv"
      rfl rfl (by decide)
  refine ⟨s', h1, ?_, ?_⟩
  · rw [h2]
    refine congrArg some ?_
    show (hypoFileOf "hyomental" (hypoSetTolerance 90 c3pre))[6 + 6]? =
      some (HLine.row 62 (multiplier_values.getD 6 0) 0)
    rw [hypoFileOf_trial_row (hypoSetTolerance 90 c3pre) "hyomental" 6 (by decide)]
    have htol : ((hypoSetTolerance 90 c3pre).ui.toleranceValue : ℚ) = 90 := by
      have h : (hypoSetTolerance 90 c3pre).ui.toleranceValue = 90 := rfl
      rw [h]; norm_num
    have hmv : multiplier_values.getD 6 0 = fl64round (7/10) := rfl
    have hmeas : (hypoSetTolerance 90 c3pre).itf.measures.getD 6 0 = 0 := rfl
    rw [htol, hmv, fl64round_t7, fl64mul_90_t7,
        pyInt_eq_floor _ (by norm_num),
        floor_eq_of ((8866461766385663 : ℚ) / 2 ^ 47) 62 (by norm_num) (by norm_num),
        hmeas]
  · show ⌊(90 : ℚ) * (7 / 10 : ℚ)⌋ = 63
    exact floor_eq_of _ 63 (by norm_num) (by norm_num)

/-- C6 (amended): the calibration-variant dataset is, after the identity
header (two lines and a blank) and the `Amplitude, multiplier, measure`
header, exactly one baseline row `(0, 0.0, baseline)`, one calibration
row with multiplier `1.0`, and then one row per trial whose amplitude is
`int(threshold * multiplier)` computed in binary64 — the floor of the
double-precision product, which matches `⌊threshold * multiplier⌋` over
the exact design multipliers at some thresholds (e.g. 40) but not all
(at 90 the `0.7` rows carry 62, not 63). -/
theorem C6_amended_dataset_structure (s : HypoState) (st fn : String)
    (hst : s.itf.sessionType = some st) (hfn : s.itf.filename = some fn)
    (hm : s.itf.measures.length = NUM_MEASURES) (htol : 0 ≤ s.ui.toleranceValue) :
    ∃ s', hypoEndSession s = .ok s' ∧
      fsRead s'.fs fn = some (hypoFileOf st s) ∧
      (hypoFileOf st s)[0]? = some (.text "Participant ID, session ID, age, sex") ∧
      (hypoFileOf st s)[2]? = some .blank ∧
      (hypoFileOf st s)[3]? = some (.text "Amplitude, multiplier, measure") ∧
      (hypoFileOf st s)[4]? = some (.row 0 0 (s.ui.baselineValue : ℚ)) ∧
      (hypoFileOf st s)[5]? = some (.row s.ui.toleranceValue 1 (s.ui.measurementValue : ℚ)) ∧
      (hypoFileOf st s).length = 6 + NUM_MEASURES ∧
      ∀ idx, idx < NUM_MEASURES →
        (hypoFileOf st s)[6 + idx]? =
          some (.row ⌊fl64mul (s.ui.toleranceValue : ℚ) (multiplier_values.getD idx 0)⌋
                 (multiplier_values.getD idx 0) (s.itf.measures.getD idx 0)) := by
  obtain ⟨s', h1, h2, -, -⟩ := hypoEndSession_spec s st fn hst hfn hm
  refine ⟨s', h1, h2, rfl, rfl, rfl, rfl, rfl, by unfold hypoFileOf; simp; omega, ?_⟩
  intro idx hidx
  rw [hypoFileOf_trial_row s st idx hidx,
      pyInt_eq_floor _ (fl64mul_nonneg _ _ (by exact_mod_cast htol) (mv_getD_nonneg idx))]

/-- Witness for the amended C6 at the concrete started session `c3pre`. -/
theorem C6_amended_dataset_structure_witness :
    ∃ s', hypoEndSession c3pre = .ok s' ∧
      fsRead s'.fs "P_hyomental.csv" = some (hypoFileOf "hyomental" c3pre) ∧
      (hypoFileOf "hyomental" c3pre)[0]? = some (.text "Participant ID, session ID, age, sex") ∧
      (hypoFileOf "hyomental" c3pre)[2]? = some .blank ∧
      (hypoFileOf "hyomental" c3pre)[3]? = some (.text "Amplitude, multiplier, measure") ∧
      (hypoFileOf "hyomental" c3pre)[4]? = some (.row 0 0 (c3pre.ui.baselineValue : ℚ)) ∧
      (hypoFileOf "hyomental" c3pre)[5]?
        = some (.row c3pre.ui.toleranceValue 1 (c3pre.ui.measurementValue : ℚ)) ∧
      (hypoFileOf "hyomental" c3pre).length = 6 + NUM_MEASURES ∧
      ∀ idx, idx < NUM_MEASURES →
        (hypoFileOf "hyomental" c3pre)[6 + idx]? =
          some (.row ⌊fl64mul (c3pre.ui.toleranceValue : ℚ) (multiplier_values.getD idx 0)⌋
                 (multiplier_values.getD idx 0) (c3pre.itf.measures.getD idx 0)) :=
  C6_amended_dataset_structure c3pre "hyomental" "P_hyomental.csv" rfl rfl rfl (by decide)

/-- C3 counterexample: a session of the calibration variant with **zero**
recorded trials still persists `NUM_MEASURES = 27` trial rows — the row
count does not equal the number of recorded trials. -/
theorem C3_counterexample_zero_trials :
    c3pre.itf.amplitude_id = 0 ∧
    hypoEndSession c3pre = .ok c3end ∧
    (fsRead c3end.fs "P_hyomental.csv").map (fun f => (f.drop 6).length) = some 27 := by
  refine ⟨rfl, rfl, rfl⟩

/-- C3 (amended): `endSession` writes its trial rows in ascending
canonical-index order, row `idx` carrying canonical index `idx`'s
multiplier and stored measure, and the written file does not depend on
the (shuffled) administration order at all.  The number of trial rows
is always the full planned count `NUM_MEASURES` in the calibration
variant — it equals the number of recorded trials only when every trial
was recorded — while the generic amplitude variant always writes exactly
`num_measures` (= number of recorded) rows. -/
theorem C3_amended_row_count_and_order (s : HypoState) (st fn : String)
    (hst : s.itf.sessionType = some st) (hfn : s.itf.filename = some fn)
    (hm : s.itf.measures.length = NUM_MEASURES) :
    ∃ s', hypoEndSession s = .ok s' ∧
      fsRead s'.fs fn = some (hypoFileOf st s) ∧
      ((hypoFileOf st s).drop 6).length = NUM_MEASURES ∧
      (∀ idx, idx < NUM_MEASURES →
        (hypoFileOf st s)[6 + idx]? =
          some (.row (pyInt (fl64mul (s.ui.toleranceValue : ℚ) (multiplier_values.getD idx 0)))
                 (multiplier_values.getD idx 0) (s.itf.measures.getD idx 0))) ∧
      (∀ p', hypoFileOf st { s with itf := { s.itf with multipliers := p' } }
               = hypoFileOf st s) ∧
      (∀ t : AmpState, ((ampFileOf t).drop 7).length = t.itf.num_measures) := by
  obtain ⟨s', h1, h2, -, -⟩ := hypoEndSession_spec s st fn hst hfn hm
  refine ⟨s', h1, h2, hypoFileOf_trial_rows_length s st,
          fun idx hidx => hypoFileOf_trial_row s st idx hidx,
          fun p' => rfl, fun t => ?_⟩
  unfold ampFileOf
  simp

/-- Witness for the amended C3 at the concrete started session. -/
theorem C3_amended_row_count_and_order_witness :
    ∃ s', hypoEndSession c3pre = .ok s' ∧
      fsRead s'.fs "P_hyomental.csv" = some (hypoFileOf "hyomental" c3pre) ∧
      ((hypoFileOf "hyomental" c3pre).drop 6).length = NUM_MEASURES ∧
      (∀ idx, idx < NUM_MEASURES →
        (hypoFileOf "hyomental" c3pre)[6 + idx]? =
          some (.row (pyInt (fl64mul (c3pre.ui.toleranceValue : ℚ) (multiplier_values.getD idx 0)))
                 (multiplier_values.getD idx 0) (c3pre.itf.measures.getD idx 0))) ∧
      (∀ p', hypoFileOf "hyomental" { c3pre with itf := { c3pre.itf with multipliers := p' } }
               = hypoFileOf "hyomental" c3pre) ∧
      (∀ t : AmpState, ((ampFileOf t).drop 7).length = t.itf.num_measures) :=
  C3_amended_row_count_and_order c3pre "hyomental" "P_hyomental.csv" rfl rfl rfl

/-- The function `writeSeq` never changes the record array's length. -/
theorem writeSeq_length (p : List Nat) (vs : List Int) :
    ∀ (k : Nat) (M : List ℚ), (writeSeq p k M vs).length = M.length := by
  induction vs with
  | nil => intro k M; rfl
  | cons v vs ih =>
    intro k M
    rw [writeSeq, ih, List.length_set]

/-- Positions not written by `writeSeq` keep their contents. -/
theorem writeSeq_getElem?_of_ne (p : List Nat) (vs : List Int) :
    ∀ (k : Nat) (M : List ℚ) (q : Nat),
      (∀ j, j < vs.length → p.getD (k + j) 0 ≠ q) →
      (writeSeq p k M vs)[q]? = M[q]? := by
  induction vs with
  | nil => intro k M q _; rfl
  | cons v vs ih =>
    intro k M q h
    rw [writeSeq, ih (k + 1) _ q ?_]
    · exact List.getElem?_set_ne (by simpa using h 0 (by simp))
    · intro j hj
      have := h (j + 1) (by simpa using Nat.succ_lt_succ hj)
      rwa [show k + (j + 1) = k + 1 + j from by omega] at this

/-- With a duplicate-free administration order, the `j`-th recorded
value ends up stored at canonical index `p[k + j]` and stays there. -/
theorem writeSeq_getElem? (p : List Nat) (vs : List Int) :
    ∀ (k : Nat) (M : List ℚ) (j : Nat), j < vs.length → k + vs.length ≤ p.length →
      p.Nodup → (∀ x ∈ p, x < M.length) →
      (writeSeq p k M vs)[p.getD (k + j) 0]? = some ((vs.getD j 0 : Int) : ℚ) := by
  induction vs with
  | nil => intro k M j hj _ _ _; simp at hj
  | cons v vs ih =>
    intro k M j hj hlen hnd hmem
    have hk : k < p.length := by simp at hlen; omega
    cases j with
    | zero =>
      rw [writeSeq, writeSeq_getElem?_of_ne p vs (k + 1) _ (p.getD (k + 0) 0) ?_]
      · have hq : p.getD (k + 0) 0 = p.getD k 0 := rfl
        rw [hq]
        have hmem' : p.getD k 0 < M.length := by
          rw [List.getD_eq_getElem p 0 hk]
          exact hmem _ (p.getElem_mem hk)
        rw [List.getElem?_set_eq_of_lt _ (by simpa using hmem')]
        rfl
      · intro j' hj'
        have h1 : k + 1 + j' < p.length := by simp at hlen; omega
        rw [List.getD_eq_getElem p 0 h1, List.getD_eq_getElem p 0 (by omega : k + 0 < p.length)]
        intro he
        have := hnd.getElem_inj_iff.mp he
        omega
    | succ j' =>
      rw [writeSeq]
      have := ih (k + 1) (M.set (p.getD k 0) ((v : Int) : ℚ)) j'
        (by simpa using hj) (by simp at hlen ⊢; omega) hnd
        (by intro x hx; rw [List.length_set]; exact hmem x hx)
      rwa [show k + 1 + j' = k + (j' + 1) from by omega] at this

/-- One mid-sequence `Next` press: the measure is stored under the
canonical index at the cursor, the cursor advances, the next amplitude
is sent, and the session-defining data survive. -/
theorem hypoAddMeasure_mid (s : HypoState) (v : Int) (k : Nat)
    (hk : s.itf.amplitude_id = k)
    (hmul : s.itf.multipliers.length = NUM_MEASURES)
    (hbound : ∀ x ∈ s.itf.multipliers, x < NUM_MEASURES)
    (hm : s.itf.measures.length = NUM_MEASURES)
    (hlt : k + 1 < NUM_MEASURES) :
    ∃ s', hypoAddMeasure (hypoSetMeasure v s) = .ok s' ∧
      s'.itf.multipliers = s.itf.multipliers ∧
      s'.itf.amplitude_id = k + 1 ∧
      s'.itf.measures = s.itf.measures.set (s.itf.multipliers.getD k 0) ((v : Int) : ℚ) ∧
      s'.core = s.core := by
  have hkl : k < s.itf.multipliers.length := by rw [hmul]; omega
  have hc : s.itf.multipliers[k]? = some (s.itf.multipliers[k]) :=
    List.getElem?_eq_getElem hkl
  have hcanon : s.itf.multipliers[k] < NUM_MEASURES :=
    hbound _ (s.itf.multipliers.getElem_mem hkl)
  have hk1 : k + 1 < s.itf.multipliers.length := by rw [hmul]; exact hlt
  have hc2 : s.itf.multipliers[k + 1]? = some (s.itf.multipliers[k + 1]) :=
    List.getElem?_eq_getElem hk1
  have hcanon2 : s.itf.multipliers[k + 1] < multiplier_values.length :=
    hbound _ (s.itf.multipliers.getElem_mem hk1)
  have hm2 : multiplier_values[s.itf.multipliers[k + 1]]? =
      some (multiplier_values[s.itf.multipliers[k + 1]]) :=
    List.getElem?_eq_getElem hcanon2
  have hgd : s.itf.multipliers.getD k 0 = s.itf.multipliers[k] :=
    List.getD_eq_getElem _ 0 hkl
  cases heq : hypoAddMeasure (hypoSetMeasure v s) with
  | error e =>
    exfalso
    unfold hypoAddMeasure hypoSetMeasure at heq
    dsimp only at heq
    rw [hk, hc] at heq
    dsimp only at heq
    rw [if_pos (by rw [hm]; exact hcanon), if_pos hlt, hc2] at heq
    dsimp only at heq
    rw [hm2] at heq
    exact absurd heq (by simp)
  | ok s' =>
    unfold hypoAddMeasure hypoSetMeasure at heq
    dsimp only at heq
    rw [hk, hc] at heq
    dsimp only at heq
    rw [if_pos (by rw [hm]; exact hcanon), if_pos hlt, hc2] at heq
    dsimp only at heq
    rw [hm2] at heq
    dsimp only at heq
    injection heq with hx
    subst hx
    refine ⟨_, rfl, rfl, rfl, ?_, rfl⟩
    dsimp only [hypoSendWaveform]
    rw [hgd]

/-- The final `Next` press (cursor at `NUM_MEASURES − 1`): the last
measure is stored, the cursor reaches `NUM_MEASURES`, the trial controls
are gated off (`Next` disabled) and the overall status reports the
completed sequence. -/
theorem hypoAddMeasure_last (s : HypoState) (v : Int) (k : Nat)
    (hk : s.itf.amplitude_id = k)
    (hmul : s.itf.multipliers.length = NUM_MEASURES)
    (hbound : ∀ x ∈ s.itf.multipliers, x < NUM_MEASURES)
    (hm : s.itf.measures.length = NUM_MEASURES)
    (hlast : k + 1 = NUM_MEASURES) :
    ∃ s', hypoAddMeasure (hypoSetMeasure v s) = .ok s' ∧
      s'.itf.multipliers = s.itf.multipliers ∧
      s'.itf.amplitude_id = k + 1 ∧
      s'.itf.measures = s.itf.measures.set (s.itf.multipliers.getD k 0) ((v : Int) : ℚ) ∧
      s'.core = s.core ∧
      s'.ui.overallStatus = "Session complete" ∧
      s'.ui.nextEnabled = false ∧
      s'.ui.endEnabled = true := by
  have hkl : k < s.itf.multipliers.length := by rw [hmul]; omega
  have hc : s.itf.multipliers[k]? = some (s.itf.multipliers[k]) :=
    List.getElem?_eq_getElem hkl
  have hcanon : s.itf.multipliers[k] < NUM_MEASURES :=
    hbound _ (s.itf.multipliers.getElem_mem hkl)
  have hgd : s.itf.multipliers.getD k 0 = s.itf.multipliers[k] :=
    List.getD_eq_getElem _ 0 hkl
  have hnlt : ¬ (k + 1 < NUM_MEASURES) := by omega
  cases heq : hypoAddMeasure (hypoSetMeasure v s) with
  | error e =>
    exfalso
    unfold hypoAddMeasure hypoSetMeasure at heq
    dsimp only at heq
    rw [hk, hc] at heq
    dsimp only at heq
    rw [if_pos (by rw [hm]; exact hcanon), if_neg hnlt] at heq
    exact absurd heq (by simp)
  | ok s' =>
    unfold hypoAddMeasure hypoSetMeasure at heq
    dsimp only at heq
    rw [hk, hc] at heq
    dsimp only at heq
    rw [if_pos (by rw [hm]; exact hcanon), if_neg hnlt] at heq
    injection heq with hx
    subst hx
    refine ⟨_, rfl, rfl, rfl, ?_, rfl, rfl, rfl, rfl⟩
    rw [hgd]

/-- Running `Next` once per measurement over the whole planned sequence:
every call succeeds, the cursor ends at `NUM_MEASURES`, the stored
records are exactly the `writeSeq` of the administration order, the
session-defining data survive, and the last call gates the trial
controls off and reports the completed sequence. -/
theorem hypoRecordRun_spec (vs : List Int) :
    ∀ (s : HypoState) (k : Nat),
      s.itf.amplitude_id = k →
      s.itf.multipliers.length = NUM_MEASURES →
      (∀ x ∈ s.itf.multipliers, x < NUM_MEASURES) →
      s.itf.measures.length = NUM_MEASURES →
      k + vs.length = NUM_MEASURES →
      ∃ s', hypoRecordRun s vs = .ok s' ∧
        s'.itf.multipliers = s.itf.multipliers ∧
        s'.itf.amplitude_id = NUM_MEASURES ∧
        s'.itf.measures = writeSeq s.itf.multipliers k s.itf.measures vs ∧
        s'.core = s.core ∧
        (vs ≠ [] → s'.ui.overallStatus = "Session complete" ∧
                   s'.ui.nextEnabled = false ∧ s'.ui.endEnabled = true) := by
  induction vs with
  | nil =>
    intro s k hk hmul hbound hm hsum
    refine ⟨s, rfl, rfl, ?_, rfl, rfl, by simp⟩
    rw [hk]
    simpa using hsum
  | cons v vs ih =>
    intro s k hk hmul hbound hm hsum
    rw [List.length_cons] at hsum
    by_cases hnil : vs = []
    · subst hnil
      obtain ⟨s1, heq, hmull, hampl, hmeas, hcore, hstat, hnext, hend⟩ :=
        hypoAddMeasure_last s v k hk hmul hbound hm (by simpa using hsum)
      refine ⟨s1, ?_, hmull, ?_, ?_, hcore, fun _ => ⟨hstat, hnext, hend⟩⟩
      · show (match hypoAddMeasure (hypoSetMeasure v s) with
              | .ok t => hypoRecordRun t []
              | .error e => .error e) = .ok s1
        rw [heq]
        rfl
      · rw [hampl]; simpa using hsum
      · exact hmeas
    · have hlt : k + 1 < NUM_MEASURES := by
        have := List.length_pos.mpr hnil
        omega
      obtain ⟨s1, heq, hmull, hampl, hmeas, hcore⟩ :=
        hypoAddMeasure_mid s v k hk hmul hbound hm hlt
      obtain ⟨s2, heq2, m2, a2, me2, co2, pr2⟩ :=
        ih s1 (k + 1) hampl (by rw [hmull, hmul]) (by rw [hmull]; exact hbound)
          (by rw [hmeas, List.length_set, hm]) (by omega)
      refine ⟨s2, ?_, ?_, a2, ?_, ?_, fun _ => pr2 hnil⟩
      · show (match hypoAddMeasure (hypoSetMeasure v s) with
              | .ok t => hypoRecordRun t vs
              | .error e => .error e) = .ok s2
        rw [heq]
        exact heq2
      · rw [m2, hmull]
      · rw [me2, hmull, hmeas]
        rfl
      · rw [co2, hcore]

/-- Pressing `Done calibration` succeeds on a freshly started session and leaves
the sequencing state (order, cursor, records) and the session-defining
data untouched. -/
theorem hypoDoneCalibration_spec (s : HypoState)
    (hk : s.itf.amplitude_id = 0)
    (hmul : s.itf.multipliers.length = NUM_MEASURES)
    (hbound : ∀ x ∈ s.itf.multipliers, x < NUM_MEASURES) :
    ∃ s', hypoDoneCalibration s = .ok s' ∧
      s'.itf.multipliers = s.itf.multipliers ∧
      s'.itf.amplitude_id = 0 ∧
      s'.itf.measures = s.itf.measures ∧
      s'.core = s.core := by
  have h0 : 0 < s.itf.multipliers.length := by rw [hmul]; decide
  have hc : s.itf.multipliers[0]? = some (s.itf.multipliers[0]) :=
    List.getElem?_eq_getElem h0
  have hcanon : s.itf.multipliers[0] < multiplier_values.length :=
    hbound _ (s.itf.multipliers.getElem_mem h0)
  have hm2 : multiplier_values[s.itf.multipliers[0]]? =
      some (multiplier_values[s.itf.multipliers[0]]) :=
    List.getElem?_eq_getElem hcanon
  cases heq : hypoDoneCalibration s with
  | error e =>
    exfalso
    unfold hypoDoneCalibration at heq
    rw [hk, hc] at heq
    dsimp only at heq
    rw [hm2] at heq
    exact absurd heq (by simp)
  | ok s' =>
    unfold hypoDoneCalibration at heq
    rw [hk, hc] at heq
    dsimp only at heq
    rw [hm2] at heq
    injection heq with hx
    subst hx
    exact ⟨_, rfl, rfl, hk, rfl, rfl⟩

/-- C5 counterexample: with all `NUM_MEASURES` trials recorded, a
further `record` call does **not** yield a `SequenceExhausted` report —
the handler indexes `multipliers[amplitude_id]` out of range and raises
`IndexError` (before touching any stored record). -/
theorem C5_counterexample_extra_record_raises :
    c5post.itf.amplitude_id = NUM_MEASURES ∧
    hypoAddMeasure (hypoSetMeasure 99 c5post) = .error .indexError ∧
    (hypoSetMeasure 99 c5post).itf.measures = List.replicate NUM_MEASURES 3 := by
  refine ⟨rfl, rfl, rfl⟩

/-- C5 (amended): recording through the whole planned sequence succeeds;
the `NUM_MEASURES`-th call itself reports the exhausted sequence
(`Session complete`) and gates the record control off, all
`NUM_MEASURES` measurements are intact — each stored under its trial's
canonical index — and a forced extra call fails with `IndexError`
rather than a report, modifying nothing. -/
theorem C5_amended_sequence_exhaustion (s : HypoState) (vs : List Int)
    (hk : s.itf.amplitude_id = 0)
    (hmul : s.itf.multipliers.length = NUM_MEASURES)
    (hbound : ∀ x ∈ s.itf.multipliers, x < NUM_MEASURES)
    (hnd : s.itf.multipliers.Nodup)
    (hm : s.itf.measures.length = NUM_MEASURES)
    (hvs : vs.length = NUM_MEASURES) :
    ∃ s', hypoRecordRun s vs = .ok s' ∧
      s'.ui.overallStatus = "Session complete" ∧
      s'.ui.nextEnabled = false ∧
      s'.itf.amplitude_id = NUM_MEASURES ∧
      (∀ j, j < NUM_MEASURES →
        s'.itf.measures[s.itf.multipliers.getD j 0]? = some ((vs.getD j 0 : Int) : ℚ)) ∧
      (∀ w, hypoAddMeasure (hypoSetMeasure w s') = .error .indexError) := by
  obtain ⟨s', heq, hmull, hampl, hmeas, hcore, hprops⟩ :=
    hypoRecordRun_spec vs s 0 hk hmul hbound hm (by rw [hvs]; omega)
  have hne : vs ≠ [] := by
    intro h
    rw [h] at hvs
    exact absurd hvs.symm (by decide)
  obtain ⟨hstat, hnext, -⟩ := hprops hne
  refine ⟨s', heq, hstat, hnext, hampl, ?_, ?_⟩
  · intro j hj
    rw [hmeas]
    have := writeSeq_getElem? s.itf.multipliers vs 0 s.itf.measures j
      (by rw [hvs]; exact hj) (by rw [hvs, hmul]; omega) hnd
      (fun x hx => by rw [hm]; exact hbound x hx)
    simpa using this
  · intro w
    unfold hypoAddMeasure hypoSetMeasure
    dsimp only
    rw [hampl, hmull, List.getElem?_eq_none (by rw [hmul])]

set_option maxRecDepth 40000 in
/-- Witness for the amended C5 at the concrete started session `c3pre`
and the constant measurement sequence `5`. -/
theorem C5_amended_sequence_exhaustion_witness :
    ∃ s', hypoRecordRun c3pre (List.replicate NUM_MEASURES 5) = .ok s' ∧
      s'.ui.overallStatus = "Session complete" ∧
      s'.ui.nextEnabled = false ∧
      s'.itf.amplitude_id = NUM_MEASURES ∧
      (∀ j, j < NUM_MEASURES →
        s'.itf.measures[c3pre.itf.multipliers.getD j 0]?
          = some (((List.replicate NUM_MEASURES 5).getD j 0 : Int) : ℚ)) ∧
      (∀ w, hypoAddMeasure (hypoSetMeasure w s') = .error .indexError) :=
  C5_amended_sequence_exhaustion c3pre (List.replicate NUM_MEASURES 5)
    rfl (by decide) (by decide) (by decide) (by decide) (by decide)

/-- C7 counterexample: the scenario exactly as claimed — session ID
`"S1"` — cannot even start in this variant: the session radio only
offers `Hyomental`/`Tongue`, neither branch of `parseInputs` assigns
`sessionType` for `"S1"`, and the following attribute read raises.  No
file `P1_S1.csv` can be produced. -/
theorem C7_counterexample_session_S1_rejected :
    c7s0Lit.ui.sessionValue = "S1" ∧
    c7s0Lit.ui.participantValue = "P1" ∧
    hypoStartSession rand0 c7s0Lit = .error .attributeError := by
  refine ⟨rfl, rfl, rfl⟩


/-- Running `startSession` on a `Hyomental` session with a nonempty participant
field and no pre-existing output file: the inputs check out, the cursor
resets, the administration order is the in-place shuffle of the previous
order, and everything else the session needs is in place. -/
theorem hypoStartSession_spec (rand : Nat → Nat) (s : HypoState)
    (hp : (s.ui.participantValue == "") = false)
    (hsess : s.ui.sessionValue = "Hyomental")
    (hage : pyEq s.ui.ageValue (.str "") = false)
    (hex : fsExists s.fs (s.ui.participantValue ++ "_" ++ "hyomental" ++ ".csv") = false) :
    ∃ t, hypoStartSession rand s = .ok t ∧
      t.itf.multipliers = fyShuffle rand s.itf.multipliers ∧
      t.itf.amplitude_id = 0 ∧
      t.itf.measures = s.itf.measures ∧
      t.itf.sessionType = some "hyomental" ∧
      t.itf.filename = some (s.ui.participantValue ++ "_" ++ "hyomental" ++ ".csv") ∧
      t.ui.participantValue = s.ui.participantValue ∧
      t.ui.ageValue = s.ui.ageValue ∧
      t.ui.sexValue = s.ui.sexValue ∧
      t.ui.baselineValue = s.ui.baselineValue ∧
      t.ui.toleranceValue = s.ui.toleranceValue ∧
      t.ui.measurementValue = s.ui.measurementValue ∧
      t.fs = s.fs := by
  have hb2 : (("Hyomental" : String) == "") = false := by decide
  have hb3 : (("Hyomental" : String) == "Hyomental") = true := by decide
  cases heq : hypoStartSession rand s with
  | error e =>
    exfalso
    unfold hypoStartSession hypoParseInputs at heq
    simp only [hsess, hp, hage, hex, hb2, hb3, Bool.false_eq_true, if_false,
      eq_self_iff_true, if_true] at heq
    exact absurd heq (by simp)
  | ok t =>
    unfold hypoStartSession hypoParseInputs at heq
    simp only [hsess, hp, hage, hex, hb2, hb3, Bool.false_eq_true, if_false,
      eq_self_iff_true, if_true] at heq
    injection heq with hx
    subst hx
    exact ⟨_, rfl, rfl, rfl, rfl, rfl, rfl, rfl, rfl, rfl, rfl, rfl, rfl, rfl⟩

/-- C7 (amended): with the session radio on `Hyomental` (participant
`P1`, age 34, sex `Male`, calibrated threshold 40), recording all 27
measurements and ending the session produces the file
`P1_hyomental.csv` whose 27 trial rows, in canonical order, are
`(⌊40·multiplier_k⌋, multiplier_k, measurement_k)` — the measurement
recorded at administration step `j` sits in the row of canonical index
`multipliers[j]`.  (The claim's `S1` session ID and `P1_S1.csv` file
name are impossible in this variant, see the counterexample.) -/
theorem C7_amended_concrete_scenario (rand : Nat → Nat) (ms : List Int)
    (hms : ms.length = NUM_MEASURES) :
    ∃ s1 s2 s3 s4,
      hypoStartSession rand c7s0 = .ok s1 ∧
      hypoDoneCalibration (hypoSetTolerance 40 s1) = .ok s2 ∧
      hypoRecordRun s2 ms = .ok s3 ∧
      hypoEndSession s3 = .ok s4 ∧
      s1.itf.filename = some "P1_hyomental.csv" ∧
      fsRead s4.fs "P1_hyomental.csv" = some (hypoFileOf "hyomental" s3) ∧
      (hypoFileOf "hyomental" s3).length = 6 + NUM_MEASURES ∧
      (∀ k, k < NUM_MEASURES →
        (hypoFileOf "hyomental" s3)[6 + k]? =
          some (.row ⌊(40 : ℚ) * multiplier_values_exact.getD k 0⌋
                 (multiplier_values.getD k 0) (s3.itf.measures.getD k 0))) ∧
      (∀ j, j < NUM_MEASURES →
        s3.itf.measures.getD (s1.itf.multipliers.getD j 0) 0 = ((ms.getD j 0 : Int) : ℚ)) := by
  obtain ⟨s1, h1, h1mul, h1aid, h1meas, h1st, h1fn, -, -, -, -, -, -, -⟩ :=
    hypoStartSession_spec rand c7s0 (by decide) rfl (by decide) rfl
  have hc7mul : c7s0.itf.multipliers = List.range NUM_MEASURES := rfl
  rw [hc7mul] at h1mul
  have hfn : c7s0.ui.participantValue ++ "_" ++ "hyomental" ++ ".csv" = "P1_hyomental.csv" := rfl
  rw [hfn] at h1fn
  have hmul1 : s1.itf.multipliers.length = NUM_MEASURES := by
    rw [h1mul, fyShuffle_length, List.length_range]
  have hbound1 : ∀ x ∈ s1.itf.multipliers, x < NUM_MEASURES := by
    rw [h1mul]
    exact fun x hx => fyShuffle_range_mem_lt rand NUM_MEASURES x hx
  have hnd1 : s1.itf.multipliers.Nodup := by
    rw [h1mul]
    exact fyShuffle_range_nodup rand NUM_MEASURES
  have hm1len : s1.itf.measures.length = NUM_MEASURES := by
    rw [h1meas]
    decide
  obtain ⟨s2, h2, h2mul, h2aid, h2meas, h2core⟩ :=
    hypoDoneCalibration_spec (hypoSetTolerance 40 s1) h1aid hmul1 hbound1
  have h2mul' : s2.itf.multipliers = s1.itf.multipliers := h2mul
  have h2meas' : s2.itf.measures = s1.itf.measures := h2meas
  have hm2len : s2.itf.measures.length = NUM_MEASURES := by rw [h2meas']; exact hm1len
  obtain ⟨s3, h3, h3mul, h3aid, h3meas, h3core, -⟩ :=
    hypoRecordRun_spec ms s2 0 h2aid (by rw [h2mul']; exact hmul1)
      (by rw [h2mul']; exact hbound1) hm2len (by rw [hms]; omega)
  have hcoreChain : s3.core = (hypoSetTolerance 40 s1).core := h3core.trans h2core
  have h3st : s3.itf.sessionType = some "hyomental" :=
    (congrArg (fun c => c.1) hcoreChain :
       s3.itf.sessionType = (hypoSetTolerance 40 s1).itf.sessionType).trans h1st
  have h3fn : s3.itf.filename = some "P1_hyomental.csv" :=
    (congrArg (fun c => c.2.1) hcoreChain :
       s3.itf.filename = (hypoSetTolerance 40 s1).itf.filename).trans h1fn
  have h3tol : s3.ui.toleranceValue = 40 :=
    (congrArg (fun c => c.2.2.2.2.2.2.1) hcoreChain :
       s3.ui.toleranceValue = 40)
  have hm3len : s3.itf.measures.length = NUM_MEASURES := by
    rw [h3meas, writeSeq_length, hm2len]
  obtain ⟨s4, h4, h4read, -, -⟩ :=
    hypoEndSession_spec s3 "hyomental" "P1_hyomental.csv" h3st h3fn hm3len
  have hc40 : ((40 : Int) : ℚ) = (40 : ℚ) := by norm_num
  refine ⟨s1, s2, s3, s4, h1, h2, h3, h4, h1fn, h4read,
          by unfold hypoFileOf; simp; omega, ?_, ?_⟩
  · intro k hk
    rw [hypoFileOf_trial_row s3 "hyomental" k hk, h3tol, hc40, amplitude40_agrees k hk]
  · intro j hj
    rw [h3meas, h2mul', h2meas']
    have hW := writeSeq_getElem? s1.itf.multipliers ms 0 s1.itf.measures j
      (by rw [hms]; exact hj) (by rw [hms, hmul1]; omega) hnd1
      (fun x hx => by rw [hm1len]; exact hbound1 x hx)
    simp only [Nat.zero_add] at hW
    rw [List.getD_eq_getElem?_getD, hW]
    rfl

set_option maxRecDepth 40000 in
/-- Witness for the amended C7 with the deterministic random source and
the constant measurement sequence `6`. -/
theorem C7_amended_concrete_scenario_witness :
    ∃ s1 s2 s3 s4,
      hypoStartSession rand0 c7s0 = .ok s1 ∧
      hypoDoneCalibration (hypoSetTolerance 40 s1) = .ok s2 ∧
      hypoRecordRun s2 (List.replicate NUM_MEASURES 6) = .ok s3 ∧
      hypoEndSession s3 = .ok s4 ∧
      s1.itf.filename = some "P1_hyomental.csv" ∧
      fsRead s4.fs "P1_hyomental.csv" = some (hypoFileOf "hyomental" s3) ∧
      (hypoFileOf "hyomental" s3).length = 6 + NUM_MEASURES ∧
      (∀ k, k < NUM_MEASURES →
        (hypoFileOf "hyomental" s3)[6 + k]? =
          some (.row ⌊(40 : ℚ) * multiplier_values_exact.getD k 0⌋
                 (multiplier_values.getD k 0) (s3.itf.measures.getD k 0))) ∧
      (∀ j, j < NUM_MEASURES →
        s3.itf.measures.getD (s1.itf.multipliers.getD j 0) 0
          = (((List.replicate NUM_MEASURES 6).getD j 0 : Int) : ℚ)) :=
  C7_amended_concrete_scenario rand0 (List.replicate NUM_MEASURES 6) (by decide)
